import Mathlib

/-!
# Verification of the tldw-agent ACP broker core

This file gives a shallow embedding, in Lean 4, of the core pure logic of the
`tldw-agent` repository (a Go program), together with theorems settling a set
of claims about it.  Each Go function is translated into an executable Lean
definition that mirrors the source line by line:

* Go strings are modelled as `String` (token lists) or `List Char`
  (character-level scanning), Go byte slices as `List Nat`;
* Go `int` is modelled as `Int` (none of the quantities involved overflow);
* filesystem paths are modelled as a flag for absoluteness plus the list of
  path components (the `/`-separated pieces of the Go path string); the
  filesystem itself, needed by `filepath.EvalSymlinks` / `os.Stat`, is an
  explicit finite association list from absolute component lists to nodes;
* fallible Go code returns `Except`;
* loops whose termination is not structural are run on an explicit fuel that
  provably dominates the number of iterations the Go loop can make.

Sources embedded here: `internal/acp/stdio.go` (line framing),
the terminal manager (`cappedBuffer`, `matchAllowlist`, `containsShellMeta`,
`Create`), `internal/workspace` (`validatePathLocked`, `ResolvePath`,
`Chdir`), `internal/config` (`IsPathBlocked`, default blocklist, default
allowlist from `internal/mcp/tools/exec.go`), Go's `path/filepath.Match`
glob matcher (used by `IsPathBlocked`), and the ACP runner's capability
merge, permission-request handler and downstream callback handlers.
-/

deriving instance DecidableEq for Except

namespace TldwAgent

/-! ## Character / string helpers

`unicode.IsSpace` restricted to ASCII, which is all the embedded call sites
(command templates, JSON framing) ever see. -/

/-- ASCII whitespace, as in Go's `asciiSpace` table: `\t \n \v \f \r ' '`. -/
def isSpaceChar (c : Char) : Bool :=
  c = ' ' ∨ c = '\t' ∨ c = '\n' ∨ c = '\x0b' ∨ c = '\x0c' ∨ c = '\r'

/-- Helper for `goFields`: split a character list on whitespace. -/
def splitWs : List Char → List Char → List (List Char)
  | acc, [] => if acc = [] then [] else [acc.reverse]
  | acc, c :: rest =>
    if isSpaceChar c then
      if acc = [] then splitWs [] rest else acc.reverse :: splitWs [] rest
    else splitWs (c :: acc) rest

/-- Go `strings.Fields`: split around runs of whitespace, dropping empties. -/
def goFields (s : String) : List String :=
  (splitWs [] s.toList).map (fun cs => String.mk cs)

/-! ## Line framing (`internal/acp/stdio.go`) -/

/-- Model of `MaxMessageSize` from `internal/acp/stdio.go`: 1 MiB. -/
def maxMessageSize : Nat := 1024 * 1024

/-- ASCII whitespace test on a byte, Go's `asciiSpace` table
(`bytes.TrimSpace` uses exactly this table for ASCII input). -/
def isAsciiSpaceByte (b : Nat) : Bool :=
  b = 32 ∨ b = 9 ∨ b = 10 ∨ b = 11 ∨ b = 12 ∨ b = 13

/-- Continuation-byte test, `0x80 ≤ b ≤ 0xBF`. -/
def isCont (b : Nat) : Bool :=
  0x80 ≤ b ∧ b ≤ 0xBF

/-- Model of `utf8.RuneStart`: `b & 0xC0 ≠ 0x80`, i.e. not a continuation
byte. -/
def runeStart (b : Nat) : Bool :=
  ¬ (0x80 ≤ b ∧ b ≤ 0xBF)

/-- Accept range for the second byte of a multi-byte sequence, from Go's
`utf8` first-byte table (rejecting overlong encodings and surrogates). -/
def accept1 (b0 b1 : Nat) : Bool :=
  if b0 = 0xE0 then 0xA0 ≤ b1 ∧ b1 ≤ 0xBF
  else if b0 = 0xED then 0x80 ≤ b1 ∧ b1 ≤ 0x9F
  else if b0 = 0xF0 then 0x90 ≤ b1 ∧ b1 ≤ 0xBF
  else if b0 = 0xF4 then 0x80 ≤ b1 ∧ b1 ≤ 0x8F
  else isCont b1

/-- Model of `utf8.DecodeRune`: the code point and the number of bytes
consumed; any invalid, truncated, overlong or surrogate sequence yields
`(RuneError = 0xFFFD, 1)` (`(0xFFFD, 0)` on empty input, as in Go). -/
def decodeRune : List Nat → Nat × Nat
  | [] => (0xFFFD, 0)
  | b0 :: rest =>
    if b0 < 0x80 then (b0, 1)
    else if b0 < 0xC2 then (0xFFFD, 1)
    else if b0 ≤ 0xDF then
      match rest with
      | b1 :: _ =>
        if accept1 b0 b1 then ((b0 - 0xC0) * 0x40 + (b1 - 0x80), 2)
        else (0xFFFD, 1)
      | _ => (0xFFFD, 1)
    else if b0 ≤ 0xEF then
      match rest with
      | b1 :: b2 :: _ =>
        if accept1 b0 b1 ∧ isCont b2 then
          ((b0 - 0xE0) * 0x1000 + (b1 - 0x80) * 0x40 + (b2 - 0x80), 3)
        else (0xFFFD, 1)
      | _ => (0xFFFD, 1)
    else if b0 ≤ 0xF4 then
      match rest with
      | b1 :: b2 :: b3 :: _ =>
        if accept1 b0 b1 ∧ isCont b2 ∧ isCont b3 then
          ((b0 - 0xF0) * 0x40000 + (b1 - 0x80) * 0x1000 +
            (b2 - 0x80) * 0x40 + (b3 - 0x80), 4)
        else (0xFFFD, 1)
      | _ => (0xFFFD, 1)
    else (0xFFFD, 1)

/-- Model of `utf8.DecodeLastRune`: an ASCII final byte decodes alone;
otherwise the nearest rune-start byte within the last four bytes is decoded
and must consume exactly to the end, else `(RuneError, 1)`. -/
def decodeLastRune (p : List Nat) : Nat × Nat :=
  match p.getLast? with
  | none => (0xFFFD, 0)
  | some last =>
    if last < 0x80 then (last, 1)
    else
      let n := p.length
      let k : Option Nat :=
        if 2 ≤ n ∧ runeStart (p.getD (n - 2) 0) then some 2
        else if 3 ≤ n ∧ runeStart (p.getD (n - 3) 0) then some 3
        else if 4 ≤ n ∧ runeStart (p.getD (n - 4) 0) then some 4
        else none
      match k with
      | none => (0xFFFD, 1)
      | some k =>
        let d := decodeRune (p.drop (n - k))
        if d.2 = k then d else (0xFFFD, 1)

/-- Model of `unicode.IsSpace`: the Latin-1 cases
(`\t \n \v \f \r ' '`, `U+0085`, `U+00A0`) plus the `White_Space` ranges
(`U+1680`, `U+2000`–`U+200A`, `U+2028`, `U+2029`, `U+202F`, `U+205F`,
`U+3000`).  `RuneError` is not whitespace, so trimming stops at invalid
bytes exactly as in Go. -/
def isUnicodeSpace (r : Nat) : Bool :=
  r = 9 ∨ r = 10 ∨ r = 11 ∨ r = 12 ∨ r = 13 ∨ r = 32 ∨ r = 0x85 ∨ r = 0xA0 ∨
  r = 0x1680 ∨ (0x2000 ≤ r ∧ r ≤ 0x200A) ∨ r = 0x2028 ∨ r = 0x2029 ∨
  r = 0x202F ∨ r = 0x205F ∨ r = 0x3000

/-- Loop of `bytes.TrimLeftFunc(s, unicode.IsSpace)`: drop leading
whitespace runes.  Each step consumes at least one byte, so fuel
`length + 1` dominates the Go scan. -/
def trimLeftUniLoop : Nat → List Nat → List Nat
  | 0, s => s
  | fuel + 1, s =>
    match s with
    | [] => []
    | _ :: _ =>
      let d := decodeRune s
      if isUnicodeSpace d.1 then trimLeftUniLoop fuel (s.drop d.2) else s

/-- Model of `bytes.TrimLeftFunc(s, unicode.IsSpace)`. -/
def trimLeftUni (s : List Nat) : List Nat :=
  trimLeftUniLoop (s.length + 1) s

/-- Loop of `bytes.TrimRightFunc(s, unicode.IsSpace)`: drop trailing
whitespace runes via `DecodeLastRune`. -/
def trimRightUniLoop : Nat → List Nat → List Nat
  | 0, s => s
  | fuel + 1, s =>
    match s with
    | [] => []
    | _ :: _ =>
      let d := decodeLastRune s
      if isUnicodeSpace d.1 then trimRightUniLoop fuel (s.take (s.length - d.2))
      else s

/-- Model of `bytes.TrimRightFunc(s, unicode.IsSpace)`. -/
def trimRightUni (s : List Nat) : List Nat :=
  trimRightUniLoop (s.length + 1) s

/-- Model of `bytes.TrimFunc(s, unicode.IsSpace)`, the Unicode-aware slow
path of `TrimSpace`: left trim, then right trim. -/
def goTrimFunc (s : List Nat) : List Nat :=
  trimRightUni (trimLeftUni s)

/-- Left scan of `bytes.TrimSpace`: skip ASCII whitespace; on the first
byte `≥ 0x80` hand the remainder to the Unicode path (`.inr`), otherwise
stop at the first non-space ASCII byte (`.inl`). -/
def trimSpaceLeftLoop : List Nat → List Nat ⊕ List Nat
  | [] => .inl []
  | b :: rest =>
    if 0x80 ≤ b then .inr (b :: rest)
    else if isAsciiSpaceByte b then trimSpaceLeftLoop rest
    else .inl (b :: rest)

/-- Right scan of `bytes.TrimSpace`, over the reversed remainder: skip
trailing ASCII whitespace; on a byte `≥ 0x80` hand the (re-reversed)
remainder to the Unicode path (`.inr`), otherwise stop (`.inl`). -/
def trimSpaceRightLoop : List Nat → List Nat ⊕ List Nat
  | [] => .inl []
  | b :: rrest =>
    if 0x80 ≤ b then .inr (b :: rrest).reverse
    else if isAsciiSpaceByte b then trimSpaceRightLoop rrest
    else .inl (b :: rrest).reverse

/-- Model of `bytes.TrimSpace`: the ASCII fast path on both ends, falling
back to `TrimFunc(·, unicode.IsSpace)` as soon as a byte `≥ 0x80` is
encountered at either end. -/
def trimSpaceBytes (s : List Nat) : List Nat :=
  match trimSpaceLeftLoop s with
  | .inr t => goTrimFunc t
  | .inl t =>
    match trimSpaceRightLoop t.reverse with
    | .inr u => goTrimFunc u
    | .inl u => u

/-- Model of `bufio.Reader.ReadBytes('\n')` on a byte stream: the first result is the
bytes up to and including the first LF (or the whole input if none), the
second the remaining stream, the third whether EOF was hit (no LF found). -/
def splitAtLF : List Nat → List Nat × List Nat × Bool
  | [] => ([], [], true)
  | b :: rest =>
    if b = 10 then ([10], rest, false)
    else
      let r := splitAtLF rest
      (b :: r.1, r.2.1, r.2.2)

/-- Drop a single trailing byte `b` if present (the `line[len(line)-1]`
checks in `ReadLineMessage`). -/
def stripSuffixByte (b : Nat) (l : List Nat) : List Nat :=
  if l.getLast? = some b then l.dropLast else l

/-- The distinct failure outcomes of `ReadLineMessage`. -/
inductive ReadErr where
  | eof
  | embeddedNewline
  | tooLong
deriving DecidableEq, Repr

/-- Loop body of `ReadLineMessage` (`internal/acp/stdio.go` lines 16-50).
The fuel dominates the iteration count: each `continue` consumes at least
the LF byte from the stream, so `input.length + 1` iterations suffice. -/
def readLineLoop : Nat → List Nat → Except ReadErr (List Nat) × List Nat
  | 0, input => (.error .eof, input)
  | fuel + 1, input =>
    let s := splitAtLF input
    let line := s.1
    let rest := s.2.1
    let eof := s.2.2
    if line = [] then (.error .eof, rest)
    else
      let line1 := stripSuffixByte 10 line
      let line2 := stripSuffixByte 13 line1
      let trimmed := trimSpaceBytes line2
      if trimmed = [] then
        if eof then (.error .eof, rest) else readLineLoop fuel rest
      else if trimmed.contains 10 then (.error .embeddedNewline, rest)
      else if trimmed.length > maxMessageSize then (.error .tooLong, rest)
      else (.ok trimmed, rest)

/-- Model of `ReadLineMessage` reading from a finite byte stream; returns the result
and the unconsumed remainder of the stream. -/
def readLineMessage (input : List Nat) : Except ReadErr (List Nat) × List Nat :=
  readLineLoop (input.length + 1) input

/-- The distinct failure outcomes of `WriteLineMessage`. -/
inductive WriteErr where
  | empty
  | embeddedNewline
  | tooLong
deriving DecidableEq, Repr

/-- Model of `WriteLineMessage` (`internal/acp/stdio.go` lines 53-69): validates the
payload and returns the exact bytes written (payload plus one LF). -/
def writeLineMessage (data : List Nat) : Except WriteErr (List Nat) :=
  if data = [] then .error .empty
  else if data.contains 10 then .error .embeddedNewline
  else if data.length > maxMessageSize then .error .tooLong
  else .ok (data ++ [10])

/-! ## Capped output buffer (terminal manager) -/

/-- Model of `cappedBuffer` state: the byte buffer, its limit (Go `int`), and the
truncation flag. -/
structure CappedBuffer where
  buf : List Nat
  limit : Int
  truncated : Bool
deriving DecidableEq, Repr

/-- A fresh buffer, as built by `Create`: `&cappedBuffer{limit: limit}`. -/
def CappedBuffer.init (limit : Int) : CappedBuffer :=
  { buf := [], limit := limit, truncated := false }

/-- Model of `cappedBuffer.Write`: append, then drop the oldest bytes down to the
limit if a positive limit was exceeded, setting `truncated`. -/
def CappedBuffer.write (b : CappedBuffer) (p : List Nat) : CappedBuffer :=
  let buf := b.buf ++ p
  if 0 < b.limit ∧ b.limit < (buf.length : Int) then
    { b with buf := buf.drop (buf.length - b.limit.toNat), truncated := true }
  else
    { b with buf := buf }

/-- Model of `cappedBuffer.Snapshot`: current contents and the truncation flag. -/
def CappedBuffer.snapshot (b : CappedBuffer) : List Nat × Bool :=
  (b.buf, b.truncated)

/-- A whole sequence of `Write` calls. -/
def CappedBuffer.writeAll (b : CappedBuffer) (ws : List (List Nat)) : CappedBuffer :=
  ws.foldl CappedBuffer.write b

/-! ## Effective output limit (`TerminalManager.Create`, lines 112-118) -/

/-- The three `limit` lines of `Create`: start from the configured
`max_output_bytes`, lower to the per-call `outputLimit` only when that is
positive and strictly smaller, then fall back to 1 MiB when nonpositive. -/
def effectiveLimit (maxOutputBytes outputLimit : Int) : Int :=
  let limit := maxOutputBytes
  let limit := if outputLimit > 0 ∧ outputLimit < limit then outputLimit else limit
  if limit ≤ 0 then 1024 * 1024 else limit

/-! ## Command allowlist (`matchAllowlist`, `containsShellMeta`) -/

/-- Model of `config.CustomCommand` (aliased as `tools.Command`). -/
structure Command where
  id : String
  template : String
  description : String
  category : String
  allowArgs : Bool
  maxArgs : Int
  env : List String
deriving DecidableEq, Repr

/-- Model of `tools.defaultUnixCommands` (`internal/mcp/tools/exec.go` lines 29-52);
on non-Windows `DefaultCommands()` returns exactly this list.  Absent struct
fields are Go zero values (`false`, `0`, `nil`). -/
def defaultUnixCommands : List Command :=
  [ { id := "pytest", template := "python -m pytest",
      description := "Run Python tests with pytest", category := "test",
      allowArgs := true, maxArgs := 20, env := [] },
    { id := "npm_test", template := "npm test",
      description := "Run npm tests", category := "test",
      allowArgs := true, maxArgs := 10, env := [] },
    { id := "go_test", template := "go test ./...",
      description := "Run Go tests", category := "test",
      allowArgs := true, maxArgs := 10, env := [] },
    { id := "cargo_test", template := "cargo test",
      description := "Run Rust tests", category := "test",
      allowArgs := true, maxArgs := 10, env := [] },
    { id := "ruff", template := "ruff check",
      description := "Run Ruff Python linter", category := "lint",
      allowArgs := true, maxArgs := 10, env := [] },
    { id := "eslint", template := "npx eslint",
      description := "Run ESLint", category := "lint",
      allowArgs := true, maxArgs := 10, env := [] },
    { id := "golint", template := "golangci-lint run",
      description := "Run Go linter", category := "lint",
      allowArgs := true, maxArgs := 10, env := [] },
    { id := "prettier", template := "npx prettier --write",
      description := "Format with Prettier", category := "format",
      allowArgs := true, maxArgs := 20, env := [] },
    { id := "black", template := "black",
      description := "Format Python with Black", category := "format",
      allowArgs := true, maxArgs := 20, env := [] },
    { id := "gofmt", template := "go fmt ./...",
      description := "Format Go code", category := "format",
      allowArgs := true, maxArgs := 5, env := [] },
    { id := "npm_install", template := "npm install",
      description := "Install npm dependencies", category := "package",
      allowArgs := false, maxArgs := 0, env := [] },
    { id := "pip_install", template := "pip install -r requirements.txt",
      description := "Install Python dependencies", category := "package",
      allowArgs := false, maxArgs := 0, env := [] },
    { id := "go_mod_tidy", template := "go mod tidy",
      description := "Tidy Go modules", category := "package",
      allowArgs := false, maxArgs := 0, env := [] } ]

/-- Model of `tokensMatchPrefix` from the terminal manager: the first list is an
elementwise initial segment of the second (the Go function checks lengths
and then compares index by index; this recursion computes the same thing). -/
def tokensMatchPfx : List String → List String → Bool
  | [], _ => true
  | _ :: _, [] => false
  | p :: ps, f :: fs => p = f && tokensMatchPfx ps fs

/-- Model of `TerminalManager.matchAllowlist` (terminal manager lines 235-261):
scan entries in order; skip an entry whose template tokenizes empty, is not
a prefix of `[command] ++ args`, or whose argument policy rejects the
remainder; return the first surviving entry with the remainder. -/
def matchAllowlist (commands : List Command) (command : String)
    (args : List String) : Except String (Command × List String) :=
  let requested := command :: args
  go commands requested
where
  go : List Command → List String → Except String (Command × List String)
    | [], _ => .error "command not in allowlist"
    | cmd :: restCmds, requested =>
      let templateTokens := goFields cmd.template
      if templateTokens = [] then go restCmds requested
      else if requested.length < templateTokens.length then go restCmds requested
      else if ¬ tokensMatchPfx templateTokens requested then go restCmds requested
      else
        let extra := requested.drop templateTokens.length
        if 0 < extra.length then
          if ¬ cmd.allowArgs then go restCmds requested
          else if cmd.maxArgs > 0 ∧ (extra.length : Int) > cmd.maxArgs then
            go restCmds requested
          else .ok (cmd, extra)
        else .ok (cmd, extra)

/-- The shell metacharacters of `containsShellMeta` (terminal manager lines
300-313).  Each entry of the Go `metaChars` slice is a single character, so
`strings.Contains` with it is character membership. -/
def metaChars : List Char :=
  [';', '&', '|', '`', '$', '(', ')', '{', '}', '<', '>',
   '\'', '"', '\\', '\n', '\r']

/-- Model of `containsShellMeta`: does the string contain any shell metacharacter? -/
def containsShellMeta (s : String) : Bool :=
  metaChars.any (fun m => s.toList.contains m)

/-- Claim-side predicate (spec §4.4): an allowlist entry matches a requested
token list iff its whitespace-tokenized template is a prefix of the request
and the remainder is empty, or `allow_args` is set and (`max_args == 0` or
the remainder is within `max_args`). -/
def entryMatches (cmd : Command) (requested : List String) : Bool :=
  let templateTokens := goFields cmd.template
  templateTokens.isPrefixOf requested &&
    (let extra := requested.drop templateTokens.length
     extra.isEmpty ||
       (cmd.allowArgs && (cmd.maxArgs = 0 || (extra.length : Int) ≤ cmd.maxArgs)))

/-- Claim-side scan (spec §4.4): first matching entry wins, together with
the remainder past its template; otherwise "command not in allowlist". -/
def firstMatchSpec : List Command → List String → Except String (Command × List String)
  | [], _ => .error "command not in allowlist"
  | cmd :: restCmds, requested =>
    if entryMatches cmd requested then
      .ok (cmd, requested.drop (goFields cmd.template).length)
    else firstMatchSpec restCmds requested

/-! ## Paths

A Go path string is represented by whether it is absolute plus its list of
raw `/`-separated components (which may contain `"."` and `".."`).  The empty
string and `"."` both clean to `⟨false, []⟩`; where Go distinguishes the
empty string as a sentinel (unset root, unset cwd argument) the embedding
uses `Option`. -/

/-- Component lists of a path. -/
abbrev Comps := List String

/-- A Go path: absoluteness flag plus components. -/
structure GoPath where
  absp : Bool
  comps : Comps
deriving DecidableEq, Repr

/-- Core of `filepath.Clean`: process components left to right; drop empties
and `"."`; `".."` pops a previous real component, is dropped at the root of
an absolute path, and is kept (stacked) in a relative path.  The accumulator
holds the output in reverse. -/
def cleanComps (absp : Bool) : Comps → Comps → Comps
  | acc, [] => acc.reverse
  | acc, c :: rest =>
    if c = "" ∨ c = "." then cleanComps absp acc rest
    else if c = ".." then
      match acc with
      | [] => if absp then cleanComps absp [] rest
              else cleanComps absp [".."] rest
      | a :: acc' =>
        if a = ".." then cleanComps absp (".." :: a :: acc') rest
        else cleanComps absp acc' rest
    else cleanComps absp (c :: acc) rest

/-- Model of `filepath.Clean`. -/
def clean (p : GoPath) : GoPath :=
  ⟨p.absp, cleanComps p.absp [] p.comps⟩

/-- Model of `filepath.Join(a, b)`: concatenate with a separator and clean; the
result is absolute iff `a` is (a leading slash of `b` becomes an empty
component, which cleaning drops). -/
def joinPaths (a b : GoPath) : GoPath :=
  clean ⟨a.absp, a.comps ++ b.comps⟩

/-- Model of `filepath.Join(a, b, c)`. -/
def joinPaths3 (a b c : GoPath) : GoPath :=
  clean ⟨a.absp, a.comps ++ b.comps ++ c.comps⟩

/-- Model of `filepath.Dir`: everything before the final component, cleaned. -/
def dirOf (p : GoPath) : GoPath :=
  clean ⟨p.absp, p.comps.dropLast⟩

/-- Model of `filepath.Base`: the final component; `"/"` for an empty absolute path,
`"."` for an empty relative one. -/
def baseOf (p : GoPath) : String :=
  p.comps.getLast?.getD (if p.absp then "/" else ".")

/-- Render an absolute component list back to the Go path string
(`"/" ++ components joined by "/"`; the root itself is `"/"`). -/
def compsToString (cs : Comps) : String :=
  "/" ++ String.intercalate "/" cs

/-! ## Go's `path/filepath.Match` glob matcher

`config.IsPathBlocked` calls `filepath.Match`; the matcher is embedded
faithfully (Unix separator `/`, runes modelled as `Char`).  `Option Bool`:
`none` is `ErrBadPattern`, `some b` is `(b, nil)`. -/

/-- Leading-star scanner of `scanChunk`. -/
def scanStars : List Char → Bool × List Char
  | [] => (false, [])
  | c :: rest =>
    if c = '*' then (true, (scanStars rest).2)
    else (false, c :: rest)

/-- Body scanner of `scanChunk`: collect characters up to the next `*`
outside a bracket class; a backslash shields the following character. -/
def scanChunkAux : Bool → List Char → List Char × List Char
  | _, [] => ([], [])
  | inrange, c :: rest =>
    if c = '\\' then
      match rest with
      | [] => ([c], [])
      | d :: rest' =>
        let r := scanChunkAux inrange rest'
        (c :: d :: r.1, r.2)
    else if c = '[' then
      let r := scanChunkAux true rest
      (c :: r.1, r.2)
    else if c = ']' then
      let r := scanChunkAux false rest
      (c :: r.1, r.2)
    else if c = '*' ∧ ¬ inrange then ([], c :: rest)
    else
      let r := scanChunkAux inrange rest
      (c :: r.1, r.2)

/-- Model of `scanChunk`: leading stars, the next chunk, and the rest of the
pattern. -/
def scanChunk (pattern : List Char) : Bool × List Char × List Char :=
  let s := scanStars pattern
  let r := scanChunkAux false s.2
  (s.1, r.1, r.2)

/-- Model of `getEsc`: read one possibly-escaped class character; `ErrBadPattern` on
a bare `-` or `]`, a dangling escape, or a class that ends prematurely. -/
def getEsc : List Char → Except Unit (Char × List Char)
  | [] => .error ()
  | c :: rest =>
    if c = '-' ∨ c = ']' then .error ()
    else if c = '\\' then
      match rest with
      | [] => .error ()
      | r :: rest' => if rest' = [] then .error () else .ok (r, rest')
    else if rest = [] then .error () else .ok (c, rest)

/-- Range loop of the `[` case of `matchChunk`: consume `lo` or `lo-hi`
ranges until the closing `]` (which only closes once at least one range was
read), recording whether the candidate rune fell in any range. -/
def classLoop : Nat → Char → Bool → Nat → List Char → Except Unit (Bool × List Char)
  | 0, _, _, _, _ => .error ()
  | fuel + 1, r, matched, nrange, chunk =>
    match chunk with
    | ']' :: rest =>
      if 0 < nrange then .ok (matched, rest)
      else .error ()
    | _ =>
      match getEsc chunk with
      | .error _ => .error ()
      | .ok (lo, chunk1) =>
        match chunk1 with
        | '-' :: chunk1' =>
          match getEsc chunk1' with
          | .error _ => .error ()
          | .ok (hi, chunk2) =>
            classLoop fuel r
              (matched ∨ (lo.toNat ≤ r.toNat ∧ r.toNat ≤ hi.toNat)) (nrange + 1) chunk2
        | _ =>
          classLoop fuel r
            (matched ∨ (lo.toNat ≤ r.toNat ∧ r.toNat = lo.toNat)) (nrange + 1) chunk1

/-- Model of `matchChunk`: match a chunk against the head of `s`; `.ok (some t)`
returns the unmatched tail, `.ok none` is a clean mismatch, `.error` is
`ErrBadPattern`.  After a mismatch the chunk is still scanned to the end for
syntax errors (the Go `failed` flag).  Fuel: the chunk shrinks by at least
one character per iteration. -/
def matchChunkAux : Nat → Bool → List Char → List Char → Except Unit (Option (List Char))
  | 0, _, _, _ => .error ()
  | fuel + 1, failed0, chunk, s =>
    match chunk with
    | [] => if failed0 then .ok none else .ok (some s)
    | c :: rest =>
      let failed := failed0 || s.isEmpty
      if c = '[' then
        let r : Char := if failed then Char.ofNat 0 else s.headD (Char.ofNat 0)
        let s' := if failed then s else s.tail
        let negated := rest.headD (Char.ofNat 0) = '^'
        let chunk1 := if negated then rest.tail else rest
        match classLoop (chunk1.length + 1) r false 0 chunk1 with
        | .error _ => .error ()
        | .ok (matched, chunkRest) =>
          matchChunkAux fuel (if matched = negated then true else failed) chunkRest s'
      else if c = '?' then
        if failed then matchChunkAux fuel failed rest s
        else
          let failed' := s.headD (Char.ofNat 0) = '/'
          matchChunkAux fuel failed' rest s.tail
      else if c = '\\' then
        match rest with
        | [] => .error ()
        | d :: rest' =>
          if failed then matchChunkAux fuel failed rest' s
          else
            let failed' := d ≠ s.headD (Char.ofNat 0)
            matchChunkAux fuel failed' rest' s.tail
      else
        if failed then matchChunkAux fuel failed rest s
        else
          let failed' := c ≠ s.headD (Char.ofNat 0)
          matchChunkAux fuel failed' rest s.tail

/-- Model of `matchChunk` entry point. -/
def matchChunk (chunk s : List Char) : Except Unit (Option (List Char)) :=
  matchChunkAux (chunk.length + 1) false chunk s

/-- The star-backtracking loop of `Match`: retry the chunk at successive
offsets of the name, not crossing a `/`; when the pattern is exhausted a
nonempty tail is not accepted. -/
def starLoopFind (chunk : List Char) (restEmpty : Bool) : List Char → Except Unit (Option (List Char))
  | [] => .ok none
  | c :: cs =>
    if c = '/' then .ok none
    else
      match matchChunk chunk cs with
      | .error _ => .error ()
      | .ok (some t) =>
        if restEmpty ∧ t ≠ [] then starLoopFind chunk restEmpty cs
        else .ok (some t)
      | .ok none => starLoopFind chunk restEmpty cs

/-- Final syntax sweep of `Match` before returning `false`: the remainder of
the pattern must still be well-formed. -/
def checkRemainder : Nat → List Char → Option Bool
  | 0, _ => none
  | _ + 1, [] => some false
  | fuel + 1, pattern =>
    let s := scanChunk pattern
    match matchChunk s.2.1 [] with
    | .error _ => none
    | .ok _ => checkRemainder fuel s.2.2

/-- Main loop of `filepath.Match`.  Fuel: `scanChunk` strictly shortens a
nonempty pattern. -/
def goMatchAux : Nat → List Char → List Char → Option Bool
  | 0, _, _ => none
  | fuel + 1, pattern, name =>
    match pattern with
    | [] => some (name = [])
    | _ :: _ =>
      let sc := scanChunk pattern
      let star := sc.1
      let chunk := sc.2.1
      let rest := sc.2.2
      if star ∧ chunk = [] then some (¬ name.contains '/')
      else
        match matchChunk chunk name with
        | .error _ => none
        | .ok (some t) =>
          if t = [] ∨ rest ≠ [] then goMatchAux fuel rest t
          else if star then
            match starLoopFind chunk (rest = []) name with
            | .error _ => none
            | .ok (some t') => goMatchAux fuel rest t'
            | .ok none => checkRemainder (rest.length + 1) rest
          else checkRemainder (rest.length + 1) rest
        | .ok none =>
          if star then
            match starLoopFind chunk (rest = []) name with
            | .error _ => none
            | .ok (some t') => goMatchAux fuel rest t'
            | .ok none => checkRemainder (rest.length + 1) rest
          else checkRemainder (rest.length + 1) rest

/-- Model of `filepath.Match(pattern, name)`: `some b` for `(b, nil)`, `none` for
`ErrBadPattern`. -/
def goMatch (pattern name : String) : Option Bool :=
  goMatchAux (pattern.toList.length + 1) pattern.toList name.toList

/-! ## Filesystem model and `filepath.EvalSymlinks`

The filesystem is a finite association list from clean absolute component
lists to nodes.  `evalSymlinks` mirrors Go's `walkSymlinks` for absolute
Unix paths: components are resolved left to right against the filesystem,
`".."` pops the resolved destination (staying at the root), a missing
component is `ENOENT`, a file with components left to walk is `ENOTDIR`,
and a symlink splices its target into the remaining path (resetting the
destination for an absolute target), with at most 255 link expansions. -/

/-- A filesystem node. -/
inductive FSNode where
  | dir
  | file
  | symlink (targetAbs : Bool) (target : Comps)
deriving DecidableEq, Repr

/-- A filesystem: association list keyed by clean absolute component list. -/
abbrev FS := List (Comps × FSNode)

/-- Look up a path in the filesystem. -/
def fsLookup (fs : FS) (p : Comps) : Option FSNode :=
  (fs.find? (fun e => e.1 = p)).map (fun e => e.2)

/-- Resolution errors.  `notExist` corresponds to a Go error satisfying
`os.IsNotExist`; the other constructors do not. -/
inductive EvalErr where
  | notExist
  | notDir
  | tooManyLinks
deriving DecidableEq, Repr

/-- One fuelled pass of `walkSymlinks`.  `links` is Go's `linksWalked`
budget (255).  The step fuel only bounds total component steps and is
chosen large enough by `evalSymlinks` that it never runs out before the
link budget does. -/
def walkAux (fs : FS) : Nat → Nat → Comps → Comps → Except EvalErr Comps
  | 0, _, _, _ => .error .tooManyLinks
  | _ + 1, _, dest, [] => .ok dest
  | fuel + 1, links, dest, c :: rest =>
    if c = "" ∨ c = "." then walkAux fs fuel links dest rest
    else if c = ".." then walkAux fs fuel links dest.dropLast rest
    else
      let p := dest ++ [c]
      match fsLookup fs p with
      | none => .error .notExist
      | some .dir => walkAux fs fuel links p rest
      | some .file =>
        if rest = [] then .ok p else .error .notDir
      | some (.symlink targetAbs target) =>
        match links with
        | 0 => .error .tooManyLinks
        | links' + 1 =>
          if targetAbs then walkAux fs fuel links' [] (target ++ rest)
          else walkAux fs fuel links' dest (target ++ rest)

/-- The longest symlink target in the filesystem (for the fuel bound). -/
def maxTargetLen (fs : FS) : Nat :=
  fs.foldl
    (fun acc e =>
      match e.2 with
      | .symlink _ t => max acc t.length
      | _ => acc) 0

/-- Model of `filepath.EvalSymlinks` on an absolute path.  Each of the at most 255
link expansions adds at most `maxTargetLen fs` components to the remaining
path and every step consumes one component or one link, so the fuel
dominates the Go loop and the `tooManyLinks` outcome coincides with Go's
"too many links" error. -/
def evalSymlinks (fs : FS) (p : Comps) : Except EvalErr Comps :=
  walkAux fs (p.length + 256 * (maxTargetLen fs + 1) + 1) 255 [] p

/-- Model of `os.Stat`: resolve symlinks fully, then report the node (the root of an
absolute path always exists as a directory). -/
def osStat (fs : FS) (p : GoPath) : Except EvalErr FSNode :=
  match evalSymlinks fs p.comps with
  | .error e => .error e
  | .ok rp =>
    if rp = [] then .ok .dir
    else
      match fsLookup fs rp with
      | some n => .ok n
      | none => .error .notExist

/-! ## Blocklist (`config.IsPathBlocked`) -/

/-- The default `workspace.blocked_paths` (`internal/config/config.go`
lines 78-84). -/
def defaultBlockedPaths : List String :=
  [".env", "*.pem", "*.key", "**/node_modules/**", "**/.git/objects/**"]

/-- Model of `Config.IsPathBlocked` (`internal/config/config.go` lines 177-190): a
path (given as the absolute component list handed to it) is blocked iff
some pattern glob-matches its basename or the full path string, a match
with `ErrBadPattern` counting as no match. -/
def isPathBlocked (blockedPaths : List String) (path : Comps) : Bool :=
  blockedPaths.any (fun pattern =>
    goMatch pattern (baseOf ⟨true, path⟩) = some true ∨
    goMatch pattern (compsToString path) = some true)

/-! ## Workspace guard (`internal/workspace`) -/

/-- Workspace session state: the root (absolute components; `none` is the
unset empty string) and the cwd (a path relative to the root, `⟨false, []⟩`
being `"."`). -/
structure WSState where
  root : Option Comps
  cwd : GoPath
deriving DecidableEq, Repr

/-- Model of `strings.HasPrefix` at the character level (Go compares bytes; on the
ASCII prefixes used here the two coincide). -/
def charsHavePfx : List Char → List Char → Bool
  | [], _ => true
  | _ :: _, [] => false
  | p :: ps, c :: cs => p = c && charsHavePfx ps cs

/-- Go `strings.HasPrefix(rel, "..")` for
`rel = filepath.Rel(realRoot, realPath)` where both arguments are clean,
dot-free absolute component lists: if the root is not an initial segment of
the path the relative form starts with a `".."` component; otherwise it
starts with `".."` exactly when the first remaining component does
textually. -/
def relStartsWithDotDot : Comps → Comps → Bool
  | [], [] => false
  | [], t :: _ => charsHavePfx ['.', '.'] t.toList
  | _ :: _, [] => true
  | b :: bs, t :: ts =>
    if b = t then relStartsWithDotDot bs ts else true

/-- Model of `Session.validatePathLocked` (`internal/workspace` lines 206-258):
resolve the (possibly relative) argument against root and cwd, evaluate
symlinks (falling back to parent + basename for a nonexistent leaf), require
the result to stay under the symlink-resolved root and to clear the
blocklist. -/
def validatePathLocked (fs : FS) (blockedPaths : List String) (st : WSState)
    (path : GoPath) : Except String Unit :=
  match st.root with
  | none => .error "no workspace set"
  | some root =>
    let absPath : GoPath :=
      if path.absp then path else joinPaths3 ⟨true, root⟩ st.cwd path
    let realPathE : Except String Comps :=
      match evalSymlinks fs absPath.comps with
      | .ok rp => .ok rp
      | .error .notExist =>
        match evalSymlinks fs (dirOf absPath).comps with
        | .ok rp => .ok (cleanComps true [] (rp ++ [baseOf absPath]))
        | .error _ => .error "failed to resolve path"
      | .error _ => .error "failed to resolve path"
    match realPathE with
    | .error e => .error e
    | .ok realPath =>
      match evalSymlinks fs root with
      | .error _ => .error "failed to resolve workspace root"
      | .ok realRoot =>
        if relStartsWithDotDot realRoot realPath then
          .error "path escapes workspace root"
        else if isPathBlocked blockedPaths realPath then
          .error "path is blocked by policy"
        else .ok ()

/-- Model of `Session.ResolvePath` (`internal/workspace` lines 261-282): make the
argument absolute against root and cwd, validate it, and return its
lexically cleaned form. -/
def resolvePath (fs : FS) (blockedPaths : List String) (st : WSState)
    (path : GoPath) : Except String GoPath :=
  match st.root with
  | none => .error "no workspace set"
  | some root =>
    let absPath : GoPath :=
      if path.absp then path else joinPaths3 ⟨true, root⟩ st.cwd path
    match validatePathLocked fs blockedPaths st absPath with
    | .error e => .error e
    | .ok _ => .ok (clean absPath)

/-- The cwd-resolution step of `Session.Chdir`: a relative argument is
joined onto the current cwd, an absolute one is taken as is. -/
def chdirNewCwd (st : WSState) (pathArg : GoPath) : GoPath :=
  if pathArg.absp then pathArg else joinPaths st.cwd pathArg

/-- Model of `Session.Chdir` (`internal/workspace` lines 135-196), given a present
`path` argument: compute the new cwd, validate `Join(root, newCwd)`, stat it
as a directory, then store the cleaned new cwd. -/
def chdir (fs : FS) (blockedPaths : List String) (st : WSState)
    (pathArg : GoPath) : Except String WSState :=
  match st.root with
  | none => .error "no workspace set"
  | some root =>
    let newCwd := chdirNewCwd st pathArg
    let absPath := joinPaths ⟨true, root⟩ newCwd
    match validatePathLocked fs blockedPaths st absPath with
    | .error e => .error ("invalid path: " ++ e)
    | .ok _ =>
      match osStat fs absPath with
      | .error _ => .error "failed to access directory"
      | .ok n =>
        if n = .dir then .ok { st with cwd := clean newCwd }
        else .error "path is not a directory"

/-- Model of `Session.SetRoot` (`internal/workspace` lines 42-64) for an absolute
argument (`filepath.Abs` then returns its cleaned form): stat, require a
directory, install the root and reset the cwd to `"."`. -/
def setRoot (fs : FS) (st : WSState) (root : GoPath) : Except String WSState :=
  let absRoot := clean root
  match osStat fs absRoot with
  | .error _ => .error "failed to access directory"
  | .ok n =>
    if n = .dir then .ok { st with root := some absRoot.comps, cwd := ⟨false, []⟩ }
    else .error "path is not a directory"

/-! ## `TerminalManager.Create` (pure prefix)

Everything `Create` does before `cmd.Start()` is pure given the filesystem:
allowlist match, shell-metacharacter scan, command-line assembly, cwd
resolution and the output limit.  `createPlan` returns that spawn
configuration; the actual process start, pipes and reaping goroutines are
the effectful suffix and are outside the embedding. -/

/-- The `execution` configuration slice consumed by the terminal manager. -/
structure ExecConfig where
  enabled : Bool
  shell : String
  maxOutputBytes : Int
  customCommands : List Command
deriving Repr

/-- Model of `NewTerminalManager`: built-in allowlist (Unix) plus custom commands. -/
def managerCommands (cfg : ExecConfig) : List Command :=
  defaultUnixCommands ++ cfg.customCommands

/-- The spawn configuration assembled by `Create` at the point of
`cmd.Start()`. -/
structure SpawnPlan where
  cmdDef : Command
  extra : List String
  fullCmd : String
  absCwd : GoPath
  limit : Int
deriving Repr, DecidableEq

/-- Model of `TerminalManager.Create` (terminal manager lines 78-139) up to
`cmd.Start()`: execution toggle, allowlist, metacharacter scan on every
extra token, command line `template ++ " " ++ join(extra)`, cwd defaulting
to the workspace root and validated through `ResolvePath`, and the output
limit.  The `cwd` argument is `none` for the empty string; the offending
token that Go interpolates into the metacharacter error message is elided
from the message here. -/
def createPlan (fs : FS) (blockedPaths : List String) (cfg : ExecConfig)
    (st : WSState) (command : String) (args : List String)
    (cwdArg : Option GoPath) (outputLimit : Int) : Except String SpawnPlan :=
  if ¬ cfg.enabled then .error "terminal execution disabled"
  else
    match matchAllowlist (managerCommands cfg) command args with
    | .error e => .error e
    | .ok (cmdDef, extraArgs) =>
      match extraArgs.find? containsShellMeta with
      | some _ => .error "argument contains disallowed characters"
      | none =>
        let fullCmd :=
          if 0 < extraArgs.length then
            cmdDef.template ++ " " ++ String.intercalate " " extraArgs
          else cmdDef.template
        let cwd : Option GoPath :=
          match cwdArg with
          | none => st.root.map (fun r => ⟨true, r⟩)
          | some c => some c
        match cwd with
        | none => .error "workspace root not set"
        | some c =>
          if ¬ c.absp then .error "cwd must be absolute"
          else
            match resolvePath fs blockedPaths st c with
            | .error e => .error ("invalid cwd: " ++ e)
            | .ok absCwd =>
              .ok { cmdDef := cmdDef, extra := extraArgs, fullCmd := fullCmd,
                    absCwd := absCwd,
                    limit := effectiveLimit cfg.maxOutputBytes outputLimit }

/-! ## JSON values and the capability merge (`buildAgentCapabilities`)

`map[string]interface{}` values are modelled as association lists with
unique keys over a small JSON value type; a Go map copy is the identity on
this pure representation. -/

/-- JSON values. -/
inductive JVal where
  | null
  | bool (b : Bool)
  | num (n : Int)
  | str (s : String)
  | arr (xs : List JVal)
  | obj (fields : List (String × JVal))

/-- Lookup in a JSON object field list (`m[k]` with `ok`). -/
def lookupField (fields : List (String × JVal)) (k : String) : Option JVal :=
  (fields.find? (fun e => e.1 = k)).map (fun e => e.2)

/-- Model of `m[k] = v` on the association-list representation: replace the first
binding of `k`, or append one. -/
def setField (fields : List (String × JVal)) (k : String) (v : JVal) :
    List (String × JVal) :=
  match fields with
  | [] => [(k, v)]
  | (k', v') :: rest =>
    if k' = k then (k, v) :: rest else (k', v') :: setField rest k v

/-- Model of `defaultAgentCapabilities` (runner lines 290-304). -/
def defaultAgentCapabilities : List (String × JVal) :=
  [ ("loadSession", .bool false),
    ("promptCapabilities",
      .obj [("image", .bool false), ("audio", .bool false),
            ("embeddedContext", .bool false)]),
    ("mcpCapabilities", .obj [("http", .bool false), ("sse", .bool false)]),
    ("sessionCapabilities", .obj []) ]

/-- Model of `parseAgentCapabilities` (runner lines 374-392): the raw downstream
`initialize` result (`none` for a nil `json.RawMessage` or one that does not
unmarshal to an object) must be an object whose `agentCapabilities` is an
object; a legacy `mcp` object is aliased to `mcpCapabilities` when the
latter is absent. -/
def parseAgentCapabilities (raw : Option JVal) : Option (List (String × JVal)) :=
  match raw with
  | some (.obj payload) =>
    match lookupField payload "agentCapabilities" with
    | some (.obj caps) =>
      if (lookupField caps "mcpCapabilities").isSome then some caps
      else
        match lookupField caps "mcp" with
        | some (.obj legacy) => some (setField caps "mcpCapabilities" (.obj legacy))
        | _ => some caps
    | _ => none
  | _ => none

/-- Model of `Runner.updateCachedCapabilities` (runner lines 315-323) as a pure
transition on the capability cache. -/
def updateCachedCapabilities (cache : Option (List (String × JVal)))
    (raw : Option JVal) : Option (List (String × JVal)) :=
  match parseAgentCapabilities raw with
  | none => cache
  | some caps => some caps

/-- Model of `Runner.buildAgentCapabilities` (runner lines 264-288), given the cache
contents after the optional one-shot refresh (`none` when no downstream
`initialize` has populated it and the probe failed): overlay the cached
`promptCapabilities`, `mcpCapabilities` and `sessionCapabilities` onto the
defaults and force `loadSession` to `false`. -/
def buildAgentCapabilities (cached : Option (List (String × JVal))) :
    List (String × JVal) :=
  let base := defaultAgentCapabilities
  match cached with
  | none => base
  | some c =>
    let merged := base
    let merged :=
      match lookupField c "promptCapabilities" with
      | some v => setField merged "promptCapabilities" v
      | none => merged
    let merged :=
      match lookupField c "mcpCapabilities" with
      | some v => setField merged "mcpCapabilities" v
      | none => merged
    let merged :=
      match lookupField c "sessionCapabilities" with
      | some v => setField merged "sessionCapabilities" v
      | none => merged
    setField merged "loadSession" (.bool false)

/-! ## RPC responses and the permission-request handler -/

/-- Model of `RPCError` (`internal/acp` message types): code and message (the
optional `data` field is never set by the embedded handlers). -/
structure RPCErrorM where
  code : Int
  message : String
deriving DecidableEq, Repr

/-- The slice of an inbound `RPCMessage` a downstream handler reads: the
request id (kept abstract as a string form), a `result` payload and an
`error` payload. -/
structure RPCMessageM where
  id : String
  result : Option JVal
  error : Option RPCErrorM

/-- Model of `RPCResponse` as produced by the handlers. -/
structure RPCResponseM where
  id : String
  result : Option JVal
  error : Option RPCErrorM

/-- Model of `NewResultResponse`. -/
def newResultResponse (id : String) (result : Option JVal) : RPCResponseM :=
  { id := id, result := result, error := none }

/-- Model of `NewErrorResponse`. -/
def newErrorResponse (id : String) (code : Int) (message : String) : RPCResponseM :=
  { id := id, result := none, error := some { code := code, message := message } }

/-- Model of `ErrInvalidParams` (-32602). -/
def errInvalidParams : Int := -32602

/-- The `{outcome:{outcome:"cancelled"}}` fallback literal. -/
def cancelledOutcome : JVal :=
  .obj [("outcome", .obj [("outcome", .str "cancelled")])]

/-- What `upstream.CallRaw` can come back with, from the point of view of
`handlePermissionRequest`: a transport/context error, a nil response, or a
response message. -/
inductive UpstreamCallOutcome where
  | callError
  | nilResponse
  | response (resp : RPCMessageM)

/-- Model of `Runner.handlePermissionRequest` (runner lines 471-493): with no
upstream, on call failure, on a nil response, or on an upstream error
response reply with the cancelled outcome; otherwise pass the upstream
result through.  The Go function always returns a non-nil response and a
nil Go error. -/
def handlePermissionRequest (hasUpstream : Bool)
    (callOutcome : UpstreamCallOutcome) (msgId : String) : RPCResponseM :=
  if ¬ hasUpstream then newResultResponse msgId (some cancelledOutcome)
  else
    match callOutcome with
    | .callError => newResultResponse msgId (some cancelledOutcome)
    | .nilResponse => newResultResponse msgId (some cancelledOutcome)
    | .response resp =>
      match resp.error with
      | some _ => newResultResponse msgId (some cancelledOutcome)
      | none => newResultResponse msgId resp.result

/-! ## Downstream callback handlers (runner lines 495-670)

Each handler is modelled on its already-unmarshalled parameter struct (a
failed unmarshal yields an invalid-params error before any field is read,
so it carries no `sessionId` semantics).  The handler result either is an
RPC error — in which case the session's filesystem / terminal manager is
never touched — or names the operation that is invoked. -/

/-- The filesystem / terminal operation a handler would perform. -/
inductive HandlerAction where
  | fsRead (path : GoPath) (startLine endLine : Option Int)
  | fsWrite (path : GoPath) (content : String)
  | termCreate (command : String) (args : List String) (cwd : Option GoPath)
      (outputByteLimit : Int)
  | termOutput (terminalId : String)
  | termWait (terminalId : String)
  | termKill (terminalId : String)
  | termRelease (terminalId : String)
deriving Repr, DecidableEq

/-- A handler either fails with an RPC error before touching the session,
or performs exactly one operation. -/
inductive HandlerOut where
  | rpcError (code : Int) (message : String)
  | act (a : HandlerAction)
deriving Repr, DecidableEq

/-- Model of `fs/read_text_file` params (`path` is `none` for the empty string). -/
structure FSReadParams where
  sessionId : String
  path : Option GoPath
  line : Int
  limit : Int

/-- Model of `fs/write_text_file` params. -/
structure FSWriteParams where
  sessionId : String
  path : Option GoPath
  content : String

/-- Model of `terminal/create` params. -/
structure TerminalCreateParams where
  sessionId : String
  command : String
  args : List String
  cwd : Option GoPath
  outputByteLimit : Int

/-- Params of the four id-addressed terminal methods. -/
structure TerminalIdParams where
  sessionId : String
  terminalId : String

/-- Model of `Runner.handleFSRead` (runner lines 495-535) up to the `fsTools.Read`
call: path must be nonempty and absolute, a nonempty `sessionId` must match
the session, then `line`/`limit` map to the 1-indexed `start_line` /
`end_line` window. -/
def handleFSRead (sessionId : String) (p : FSReadParams) : HandlerOut :=
  if p.path = none ∨ ¬ (p.path.getD ⟨false, []⟩).absp then
    .rpcError errInvalidParams "path must be absolute"
  else if p.sessionId ≠ "" ∧ sessionId ≠ p.sessionId then
    .rpcError errInvalidParams "sessionId mismatch"
  else
    let path := p.path.getD ⟨false, []⟩
    if 0 < p.limit then
      let startLine := if p.line ≤ 0 then 1 else p.line
      .act (.fsRead path (some startLine) (some (startLine + p.limit - 1)))
    else if 0 < p.line then .act (.fsRead path (some p.line) none)
    else .act (.fsRead path none none)

/-- Model of `Runner.handleFSWrite` (runner lines 537-560) up to `fsTools.Write`. -/
def handleFSWrite (sessionId : String) (p : FSWriteParams) : HandlerOut :=
  if p.path = none ∨ ¬ (p.path.getD ⟨false, []⟩).absp then
    .rpcError errInvalidParams "path must be absolute"
  else if p.sessionId ≠ "" ∧ sessionId ≠ p.sessionId then
    .rpcError errInvalidParams "sessionId mismatch"
  else .act (.fsWrite (p.path.getD ⟨false, []⟩) p.content)

/-- Model of `Runner.handleTerminalCreate` (runner lines 562-583) up to
`terminal.Create`. -/
def handleTerminalCreate (sessionId : String) (p : TerminalCreateParams) : HandlerOut :=
  if p.sessionId ≠ "" ∧ sessionId ≠ p.sessionId then
    .rpcError errInvalidParams "sessionId mismatch"
  else .act (.termCreate p.command p.args p.cwd p.outputByteLimit)

/-- Model of `Runner.handleTerminalOutput` (runner lines 585-611) up to
`terminal.Output`. -/
def handleTerminalOutput (sessionId : String) (p : TerminalIdParams) : HandlerOut :=
  if p.sessionId ≠ "" ∧ sessionId ≠ p.sessionId then
    .rpcError errInvalidParams "sessionId mismatch"
  else .act (.termOutput p.terminalId)

/-- Model of `Runner.handleTerminalWait` (runner lines 613-634) up to
`terminal.WaitForExit`. -/
def handleTerminalWait (sessionId : String) (p : TerminalIdParams) : HandlerOut :=
  if p.sessionId ≠ "" ∧ sessionId ≠ p.sessionId then
    .rpcError errInvalidParams "sessionId mismatch"
  else .act (.termWait p.terminalId)

/-- Model of `Runner.handleTerminalKill` (runner lines 636-652) up to
`terminal.Kill`. -/
def handleTerminalKill (sessionId : String) (p : TerminalIdParams) : HandlerOut :=
  if p.sessionId ≠ "" ∧ sessionId ≠ p.sessionId then
    .rpcError errInvalidParams "sessionId mismatch"
  else .act (.termKill p.terminalId)

/-- Model of `Runner.handleTerminalRelease` (runner lines 654-670) up to
`terminal.Release`. -/
def handleTerminalRelease (sessionId : String) (p : TerminalIdParams) : HandlerOut :=
  if p.sessionId ≠ "" ∧ sessionId ≠ p.sessionId then
    .rpcError errInvalidParams "sessionId mismatch"
  else .act (.termRelease p.terminalId)

/-! ## Concrete instances used by counterexamples and witnesses -/

/-- A workspace filesystem with two in-root symlinks: `/ws/a/link → /ws/b`
(pointing inside the root) and `/ws/a/esc → /etc/passwd` (pointing outside),
plus a regular file `/ws/esc`. -/
def fsC1 : FS :=
  [ (["ws"], .dir), (["ws", "a"], .dir), (["ws", "b"], .dir),
    (["ws", "a", "link"], .symlink true ["ws", "b"]),
    (["ws", "a", "esc"], .symlink true ["etc", "passwd"]),
    (["ws", "esc"], .file), (["etc"], .dir), (["etc", "passwd"], .file) ]

/-- The empty workspace state (`root == ""`, `cwd == "."`). -/
def stEmpty : WSState := { root := none, cwd := ⟨false, []⟩ }

/-- The state after `SetRoot("/ws")` succeeds. -/
def stC1 : WSState := { root := some ["ws"], cwd := ⟨false, []⟩ }

/-- A minimal workspace filesystem: `/ws` and `/ws/sub` directories. -/
def fsW : FS := [(["ws"], .dir), (["ws", "sub"], .dir)]

/-- Workspace state rooted at `/ws`. -/
def stW : WSState := { root := some ["ws"], cwd := ⟨false, []⟩ }

/-- An execution config with `max_output_bytes` unset (zero). -/
def cfgZeroMax : ExecConfig :=
  { enabled := true, shell := "auto", maxOutputBytes := 0, customCommands := [] }

/-- The downstream capability object of spec scenario F. -/
def capsF : List (String × JVal) :=
  [ ("promptCapabilities",
      .obj [("image", .bool true), ("audio", .bool true),
            ("embeddedContext", .bool true)]),
    ("mcpCapabilities", .obj [("http", .bool true), ("sse", .bool true)]),
    ("sessionCapabilities", .obj [("cancel", .bool true)]) ]

/-! ## Helper lemmas -/

/-- Setting a key then reading it back yields the new value. -/
theorem lookupField_setField_same (l : List (String × JVal)) (k : String) (v : JVal) :
    lookupField (setField l k v) k = some v := by
  induction l with
  | nil => simp [setField, lookupField, List.find?]
  | cons e rest ih =>
    by_cases h : e.1 = k
    · simp [setField, lookupField, List.find?, h]
    · simp only [setField]
      rw [if_neg h]
      simpa [lookupField, List.find?, h] using ih

/-- Setting a key leaves every other key unchanged. -/
theorem lookupField_setField_other (l : List (String × JVal)) (k k' : String)
    (v : JVal) (h : k' ≠ k) :
    lookupField (setField l k v) k' = lookupField l k' := by
  induction l with
  | nil => simp [setField, lookupField, List.find?, Ne.symm h]
  | cons e rest ih =>
    by_cases he : e.1 = k
    · subst he
      simp [setField, lookupField, List.find?, Ne.symm h]
    · simp only [setField]
      rw [if_neg he]
      by_cases he' : e.1 = k'
      · simp [lookupField, List.find?, he']
      · simpa [lookupField, List.find?, he'] using ih

/-- Model of `ReadBytes('\n')` on a LF-free payload followed by LF consumes exactly
the payload and its terminator. -/
theorem splitAtLF_append_newline (x : List Nat) (h : 10 ∉ x) :
    splitAtLF (x ++ [10]) = (x ++ [10], [], false) := by
  induction x with
  | nil => rfl
  | cons b rest ih =>
    have hb : b ≠ 10 := by
      intro hb
      exact h (by simp [hb])
    have hrest : 10 ∉ rest := fun hc => h (by simp [hc])
    simp [splitAtLF, hb, ih hrest]

/-- Stripping the trailing LF recovers the payload. -/
theorem stripSuffixByte_append_newline (x : List Nat) :
    stripSuffixByte 10 (x ++ [10]) = x := by
  simp [stripSuffixByte, List.getLast?_concat, List.dropLast_concat]

/-- A list whose last element is not the byte is unchanged by the strip. -/
theorem stripSuffixByte_of_getLast_ne (b : Nat) (x : List Nat)
    (h : x.getLast? ≠ some b) : stripSuffixByte b x = x := by
  simp [stripSuffixByte, h]

/-- A byte list whose first and last bytes are non-whitespace ASCII (below
`0x80`) is a fixed point of `trimSpaceBytes`: both scans of `TrimSpace`
stop at those bytes without ever reaching the Unicode fallback, exactly as
in Go, whatever the interior bytes are. -/
theorem trimSpaceBytes_eq_self (x : List Nat)
    (hh1 : x.headD 0 < 128) (hh : isAsciiSpaceByte (x.headD 0) = false)
    (hl1 : x.getLastD 0 < 128) (hl : isAsciiSpaceByte (x.getLastD 0) = false) :
    trimSpaceBytes x = x := by
  cases x with
  | nil => rfl
  | cons b rest =>
    simp only [List.headD_cons] at hh1 hh
    have hleft : trimSpaceLeftLoop (b :: rest) = .inl (b :: rest) := by
      rw [trimSpaceLeftLoop]
      rw [if_neg (by omega), if_neg (by simp [hh])]
    cases hr : (b :: rest).reverse with
    | nil => exact absurd hr (by simp)
    | cons a t =>
      have ha : (b :: rest).getLast? = some a := by
        rw [← List.head?_reverse, hr]
        rfl
      have ha' : (b :: rest).getLastD 0 = a := by
        rw [List.getLastD_eq_getLast?, ha]
        rfl
      rw [ha'] at hl1 hl
      have hright : trimSpaceRightLoop (a :: t) = .inl ((a :: t).reverse) := by
        rw [trimSpaceRightLoop]
        rw [if_neg (by omega), if_neg (by simp [hl])]
      rw [trimSpaceBytes, hleft]
      dsimp only
      rw [hr, hright]
      dsimp only
      rw [← hr, List.reverse_reverse]

/-- One-pass behavior of the read loop on a well-formed frame: the payload
is returned when within the cap, and rejected when over it. -/
theorem readLineLoop_frame (fuel : Nat) (x : List Nat) (hne : x ≠ [])
    (hlf : 10 ∉ x)
    (hh1 : x.headD 0 < 128) (hh : isAsciiSpaceByte (x.headD 0) = false)
    (hl1 : x.getLastD 0 < 128) (hl : isAsciiSpaceByte (x.getLastD 0) = false) :
    readLineLoop (fuel + 1) (x ++ [10]) =
      (if x.length > maxMessageSize then (.error .tooLong, []) else (.ok x, [])) := by
  have hlast13 : x.getLast? ≠ some 13 := by
    intro hc
    have : x.getLastD 0 = 13 := by
      rw [List.getLastD_eq_getLast?, hc]
      rfl
    rw [this] at hl
    simp [isAsciiSpaceByte] at hl
  simp only [readLineLoop, splitAtLF_append_newline x hlf,
    stripSuffixByte_append_newline, stripSuffixByte_of_getLast_ne _ _ hlast13,
    trimSpaceBytes_eq_self x hh1 hh hl1 hl]
  have hxne : ¬ (x ++ [10] = []) := by simp
  rw [if_neg hxne, if_neg hne]
  simp [hlf]

/-- Single-write invariant of the capped buffer: relative to a positive
limit and the concatenation `stream` of everything written so far, one more
`Write` preserves "the contents are a suffix of the stream of length
`min total limit`, and `truncated` records whether the stream ever exceeded
the limit". -/
theorem cappedBuffer_write_inv (limit : Int) (hpos : 0 < limit)
    (b : CappedBuffer) (p stream : List Nat) (total : Nat)
    (hL : b.limit = limit) (hsuf : b.buf <:+ stream)
    (hlen : b.buf.length = min total limit.toNat)
    (htr : b.truncated = true ↔ limit < (total : Int)) :
    (b.write p).limit = limit ∧
    (b.write p).buf <:+ stream ++ p ∧
    (b.write p).buf.length = min (total + p.length) limit.toNat ∧
    ((b.write p).truncated = true ↔ limit < ((total + p.length : Nat) : Int)) := by
  have hsuf' : b.buf ++ p <:+ stream ++ p := by
    obtain ⟨t, ht⟩ := hsuf
    exact ⟨t, by rw [← List.append_assoc, ht]⟩
  have htn : (limit.toNat : Int) = limit := Int.toNat_of_nonneg (le_of_lt hpos)
  have hlen' : (b.buf ++ p).length = b.buf.length + p.length := by simp
  rw [CappedBuffer.write]
  by_cases h : 0 < b.limit ∧ b.limit < ((b.buf ++ p).length : Int)
  · rw [if_pos h]
    obtain ⟨-, hover⟩ := h
    rw [hL] at hover
    have hoverN : limit.toNat < (b.buf ++ p).length := by omega
    dsimp only
    refine ⟨hL, ?_, ?_, ?_⟩
    · exact List.IsSuffix.trans (List.drop_suffix _ _) hsuf'
    · simp only [List.length_drop, hL]
      omega
    · simp only [eq_self_iff_true, true_iff]
      omega
  · rw [if_neg h]
    have hnot : ¬ (limit < ((b.buf ++ p).length : Int)) := by
      intro hc
      exact h ⟨by rw [hL]; exact hpos, by rw [hL]; exact hc⟩
    rw [hlen', hlen] at hnot
    dsimp only
    refine ⟨hL, hsuf', ?_, ?_⟩
    · simp only [hlen', hlen]
      omega
    · rw [htr]
      constructor
      · intro hlt
        omega
      · intro hlt
        omega

/-- Fold of `cappedBuffer_write_inv` over a whole write sequence. -/
theorem cappedBuffer_writeAll_inv (limit : Int) (hpos : 0 < limit)
    (ws : List (List Nat)) :
    ∀ (b : CappedBuffer) (stream : List Nat) (total : Nat),
      b.limit = limit → b.buf <:+ stream →
      b.buf.length = min total limit.toNat →
      (b.truncated = true ↔ limit < (total : Int)) →
      (b.writeAll ws).limit = limit ∧
      (b.writeAll ws).buf <:+ stream ++ ws.flatten ∧
      (b.writeAll ws).buf.length = min (total + ws.flatten.length) limit.toNat ∧
      ((b.writeAll ws).truncated = true ↔
        limit < ((total + ws.flatten.length : Nat) : Int)) := by
  induction ws with
  | nil =>
    intro b stream total hL hsuf hlen htr
    refine ⟨hL, by simpa using hsuf, by simpa using hlen, by simpa using htr⟩
  | cons p rest ih =>
    intro b stream total hL hsuf hlen htr
    obtain ⟨hL', hsuf', hlen', htr'⟩ :=
      cappedBuffer_write_inv limit hpos b p stream total hL hsuf hlen htr
    have hfold : b.writeAll (p :: rest) = (b.write p).writeAll rest := rfl
    obtain ⟨r1, r2, r3, r4⟩ :=
      ih (b.write p) (stream ++ p) (total + p.length) hL' hsuf' hlen' htr'
    rw [hfold]
    refine ⟨r1, ?_, ?_, ?_⟩
    · simpa [List.append_assoc] using r2
    · rw [r3]
      congr 1
      simp
      omega
    · rw [r4]
      constructor <;> intro hlt <;> (simp at hlt ⊢; omega)

/-- The Go `tokensMatchPrefix` loop computes list prefix. -/
theorem tokensMatchPfx_eq (ps fs : List String) :
    tokensMatchPfx ps fs = ps.isPrefixOf fs := by
  induction ps generalizing fs with
  | nil => cases fs <;> rfl
  | cons p ps ih =>
    cases fs with
    | nil => rfl
    | cons f fs' =>
      by_cases hpf : p = f
      · simp [tokensMatchPfx, List.isPrefixOf, ih, hpf]
      · simp [tokensMatchPfx, List.isPrefixOf, hpf]

/-- A successful token-prefix match bounds the template length. -/
theorem tokensMatchPfx_length_le (ps fs : List String)
    (h : tokensMatchPfx ps fs = true) : ps.length ≤ fs.length := by
  induction ps generalizing fs with
  | nil => simp
  | cons p ps ih =>
    cases fs with
    | nil => exact absurd h (by simp [tokensMatchPfx])
    | cons f fs' =>
      simp only [tokensMatchPfx, Bool.and_eq_true] at h
      simpa using ih fs' h.2

/-- Propositional unfolding of the claim-side match predicate. -/
theorem entryMatches_eq_true_iff (cmd : Command) (requested : List String) :
    entryMatches cmd requested = true ↔
      ((goFields cmd.template).isPrefixOf requested = true ∧
       (requested.drop (goFields cmd.template).length = [] ∨
        (cmd.allowArgs = true ∧
         (cmd.maxArgs = 0 ∨
          ((requested.drop (goFields cmd.template).length).length : Int) ≤
            cmd.maxArgs)))) := by
  simp [entryMatches, List.isEmpty_iff]

/-- The allowlist scan of `matchAllowlist` agrees entry by entry with the
claim-side "first matching entry" scan, provided every entry's template
tokenizes nonempty and no entry carries a negative `max_args` (both hold
for the default allowlist and any configuration with well-formed custom
commands). -/
theorem matchAllowlistGo_eq (cmds : List Command) (requested : List String)
    (h1 : ∀ c ∈ cmds, goFields c.template ≠ [])
    (h2 : ∀ c ∈ cmds, 0 ≤ c.maxArgs) :
    matchAllowlist.go cmds requested = firstMatchSpec cmds requested := by
  induction cmds with
  | nil => rfl
  | cons cmd rest ih =>
    have htt : goFields cmd.template ≠ [] := h1 cmd (by simp)
    have hmax : 0 ≤ cmd.maxArgs := h2 cmd (by simp)
    have ihr : matchAllowlist.go rest requested = firstMatchSpec rest requested :=
      ih (fun c hc => h1 c (by simp [hc])) (fun c hc => h2 c (by simp [hc]))
    rw [matchAllowlist.go, firstMatchSpec]
    rw [if_neg htt]
    by_cases hlen : requested.length < (goFields cmd.template).length
    · rw [if_pos hlen, ihr]
      have hem : ¬ (entryMatches cmd requested = true) := by
        rw [entryMatches_eq_true_iff]
        rintro ⟨hp, -⟩
        rw [← tokensMatchPfx_eq] at hp
        have hle := tokensMatchPfx_length_le _ _ hp
        omega
      rw [if_neg hem]
    · rw [if_neg hlen]
      by_cases hpfx : tokensMatchPfx (goFields cmd.template) requested = true
      · rw [if_neg (by simp [hpfx])]
        have hpre : (goFields cmd.template).isPrefixOf requested = true := by
          rw [← tokensMatchPfx_eq]
          exact hpfx
        by_cases hex : 0 < (requested.drop (goFields cmd.template).length).length
        · rw [if_pos hex]
          have hne : requested.drop (goFields cmd.template).length ≠ [] := by
            intro hc
            rw [hc] at hex
            simp at hex
          by_cases hargs : cmd.allowArgs = true
          · rw [if_neg (by simp [hargs])]
            by_cases hcap : cmd.maxArgs > 0 ∧
                ((requested.drop (goFields cmd.template).length).length : Int) >
                  cmd.maxArgs
            · rw [if_pos hcap, ihr]
              have hem : ¬ (entryMatches cmd requested = true) := by
                rw [entryMatches_eq_true_iff]
                rintro ⟨-, hnil | ⟨-, hcase⟩⟩
                · exact hne hnil
                · rcases hcase with h0 | hle <;> omega
              rw [if_neg hem]
            · rw [if_neg hcap]
              have hem : entryMatches cmd requested = true := by
                rw [entryMatches_eq_true_iff]
                refine ⟨hpre, Or.inr ⟨hargs, ?_⟩⟩
                rcases not_and_or.mp hcap with h | h
                · left
                  omega
                · right
                  omega
              rw [if_pos hem]
          · have hargs' : cmd.allowArgs = false := by
              cases hv : cmd.allowArgs
              · rfl
              · exact absurd hv hargs
            rw [if_pos (by simp [hargs']), ihr]
            have hem : ¬ (entryMatches cmd requested = true) := by
              rw [entryMatches_eq_true_iff]
              rintro ⟨-, hnil | ⟨ha, -⟩⟩
              · exact hne hnil
              · rw [hargs'] at ha
                exact Bool.false_ne_true ha
            rw [if_neg hem]
        · rw [if_neg hex]
          have hnil : requested.drop (goFields cmd.template).length = [] := by
            cases hd : requested.drop (goFields cmd.template).length with
            | nil => rfl
            | cons a t =>
              rw [hd] at hex
              simp at hex
          have hem : entryMatches cmd requested = true := by
            rw [entryMatches_eq_true_iff]
            exact ⟨hpre, Or.inl hnil⟩
          rw [if_pos hem]
      · rw [if_pos (by simpa using hpfx), ihr]
        have hem : ¬ (entryMatches cmd requested = true) := by
          rw [entryMatches_eq_true_iff]
          rintro ⟨hp, -⟩
          rw [← tokensMatchPfx_eq] at hp
          exact hpfx hp
        rw [if_neg hem]

/-! ## Claim theorems -/

/-- Claim C1 (code bug).  After `SetRoot("/ws")` succeeds on `fsC1`,
`ResolvePath("/ws/a/link/../esc")` succeeds and returns `/ws/a/esc` — yet
the symlink-resolved form of that returned path is `/etc/passwd`, which is
*not* a descendant of the symlink-resolved root `/ws` (its relative path
starts with `".."`).  The guard validated the symlink resolution of the raw
argument (which is `/ws/esc`, inside the root) but returned the lexically
cleaned argument without re-validating it, so the claimed invariant fails on
the returned path. -/
theorem resolvePath_symlink_escape_bug :
    setRoot fsC1 stEmpty ⟨true, ["ws"]⟩ = .ok stC1 ∧
    resolvePath fsC1 defaultBlockedPaths stC1
        ⟨true, ["ws", "a", "link", "..", "esc"]⟩ =
      .ok ⟨true, ["ws", "a", "esc"]⟩ ∧
    evalSymlinks fsC1 ["ws"] = .ok ["ws"] ∧
    evalSymlinks fsC1 ["ws", "a", "esc"] = .ok ["etc", "passwd"] ∧
    relStartsWithDotDot ["ws"] ["etc", "passwd"] = true := by
  refine ⟨by decide, by decide, by decide, by decide, by decide⟩

/-- Claim C6 (confirmed).  The permission-request handler never replies with
an RPC error: the `error` field of its response is always `nil`; with no
upstream, on upstream call failure, on a nil upstream response, and on an
upstream error response the result is `{outcome:{outcome:"cancelled"}}`;
otherwise the upstream result is passed through unchanged. -/
theorem handlePermissionRequest_always_result :
    (∀ (up : Bool) (o : UpstreamCallOutcome) (id : String),
      (handlePermissionRequest up o id).error = none) ∧
    (∀ (o : UpstreamCallOutcome) (id : String),
      handlePermissionRequest false o id =
        newResultResponse id (some cancelledOutcome)) ∧
    (∀ id : String,
      handlePermissionRequest true .callError id =
        newResultResponse id (some cancelledOutcome)) ∧
    (∀ id : String,
      handlePermissionRequest true .nilResponse id =
        newResultResponse id (some cancelledOutcome)) ∧
    (∀ (id rid : String) (res : Option JVal) (e : RPCErrorM),
      handlePermissionRequest true (.response ⟨rid, res, some e⟩) id =
        newResultResponse id (some cancelledOutcome)) ∧
    (∀ (id rid : String) (res : Option JVal),
      handlePermissionRequest true (.response ⟨rid, res, none⟩) id =
        newResultResponse id res) := by
  refine ⟨?_, ?_, fun _ => rfl, fun _ => rfl, fun _ _ _ _ => rfl, fun _ _ _ => rfl⟩
  · intro up o id
    cases up with
    | false => rfl
    | true =>
      cases o with
      | callError => rfl
      | nilResponse => rfl
      | response resp =>
        rcases resp with ⟨rid, res, err⟩
        cases err <;> rfl
  · intro o id
    rfl

/-- Claim C7 (counterexample).  The claim asserts that with `max_output_bytes`
unset (zero) and a positive per-call `outputByteLimit`, the buffer limit is
the per-call value.  At `max_output_bytes = 0`, `outputByteLimit = 5`, the
code computes `1 MiB`, not `5`: the per-call value is only taken when it is
*strictly below* the configured value, and `5 < 0` fails, after which the
nonpositive `0` falls back to `1 MiB`.  A full `terminal/create` with that
configuration exhibits the same limit. -/
theorem effectiveLimit_zero_max_counterexample :
    effectiveLimit 0 5 = 1048576 ∧ effectiveLimit 0 5 ≠ 5 ∧
    (createPlan fsW defaultBlockedPaths cfgZeroMax stW "python" ["-m", "pytest"]
        none 5).toOption.map SpawnPlan.limit = some 1048576 := by
  refine ⟨rfl, by decide, rfl⟩

/-- Claim C7 (amended).  The effective output buffer limit of
`terminal/create` is: the smaller of the configured `max_output_bytes` and
the per-call `outputByteLimit` when both are positive; the configured value
when only it is positive; and 1 MiB whenever the configured value is
nonpositive (in particular, with `max_output_bytes` unset the per-call value
is ignored). -/
theorem effectiveLimit_characterization (m o : Int) :
    effectiveLimit m o =
      if 0 < m then (if 0 < o then min m o else m) else 1024 * 1024 := by
  simp only [effectiveLimit, min_def]
  split_ifs <;> omega

/-- Claim C10 (counterexample).  The claim says every downstream callback
whose params carry a nonempty, mismatched `sessionId` draws the
invalid-params error "sessionId mismatch".  For `fs/read_text_file` the
path check runs first: with an empty path and a mismatched session id the
reply is "path must be absolute", not "sessionId mismatch". -/
theorem handleFSRead_mismatch_message_counterexample :
    handleFSRead "right" ⟨"wrong", none, 0, 0⟩ =
      .rpcError errInvalidParams "path must be absolute" ∧
    ("wrong" : String) ≠ "" ∧ ("right" : String) ≠ "wrong" ∧
    ("path must be absolute" : String) ≠ "sessionId mismatch" := by
  refine ⟨by decide, by decide, by decide, by decide⟩

/-- Claim C10 (amended).  Every downstream callback handler
(`fs/read_text_file`, `fs/write_text_file`, `terminal/*`) whose params carry
a nonempty `sessionId` different from the registered session id replies with
an invalid-params error and performs no filesystem or terminal operation;
the message is "sessionId mismatch", except that the fs handlers check the
path first, so with an empty or relative path the invalid-params error is
"path must be absolute" instead.  An absent or empty `sessionId` is accepted
without any check: the handler behaves exactly as with the registered id. -/
theorem sessionId_mismatch_rejected (sid : String) :
    (∀ p : FSReadParams, p.sessionId ≠ "" → sid ≠ p.sessionId →
      (∃ m, handleFSRead sid p = .rpcError errInvalidParams m) ∧
      (∀ path, p.path = some path → path.absp = true →
        handleFSRead sid p = .rpcError errInvalidParams "sessionId mismatch")) ∧
    (∀ p : FSWriteParams, p.sessionId ≠ "" → sid ≠ p.sessionId →
      (∃ m, handleFSWrite sid p = .rpcError errInvalidParams m) ∧
      (∀ path, p.path = some path → path.absp = true →
        handleFSWrite sid p = .rpcError errInvalidParams "sessionId mismatch")) ∧
    (∀ p : TerminalCreateParams, p.sessionId ≠ "" → sid ≠ p.sessionId →
      handleTerminalCreate sid p = .rpcError errInvalidParams "sessionId mismatch") ∧
    (∀ p : TerminalIdParams, p.sessionId ≠ "" → sid ≠ p.sessionId →
      handleTerminalOutput sid p = .rpcError errInvalidParams "sessionId mismatch" ∧
      handleTerminalWait sid p = .rpcError errInvalidParams "sessionId mismatch" ∧
      handleTerminalKill sid p = .rpcError errInvalidParams "sessionId mismatch" ∧
      handleTerminalRelease sid p = .rpcError errInvalidParams "sessionId mismatch") ∧
    (∀ p : FSReadParams,
      handleFSRead sid { p with sessionId := "" } =
        handleFSRead sid { p with sessionId := sid }) ∧
    (∀ p : FSWriteParams,
      handleFSWrite sid { p with sessionId := "" } =
        handleFSWrite sid { p with sessionId := sid }) ∧
    (∀ p : TerminalCreateParams,
      handleTerminalCreate sid { p with sessionId := "" } =
        handleTerminalCreate sid { p with sessionId := sid }) ∧
    (∀ p : TerminalIdParams,
      handleTerminalOutput sid { p with sessionId := "" } =
        handleTerminalOutput sid { p with sessionId := sid } ∧
      handleTerminalWait sid { p with sessionId := "" } =
        handleTerminalWait sid { p with sessionId := sid } ∧
      handleTerminalKill sid { p with sessionId := "" } =
        handleTerminalKill sid { p with sessionId := sid } ∧
      handleTerminalRelease sid { p with sessionId := "" } =
        handleTerminalRelease sid { p with sessionId := sid }) := by
  refine ⟨?_, ?_, ?_, ?_, ?_, ?_, ?_, ?_⟩
  · intro p h1 h2
    constructor
    · by_cases hp : p.path = none ∨ ¬ (p.path.getD ⟨false, []⟩).absp
      · exact ⟨"path must be absolute", by simp only [handleFSRead, if_pos hp]⟩
      · exact ⟨"sessionId mismatch",
          by simp only [handleFSRead, if_neg hp, if_pos (And.intro h1 h2)]⟩
    · intro path hp ha
      have hnp : ¬ (p.path = none ∨ ¬ (p.path.getD ⟨false, []⟩).absp) := by
        simp [hp, ha]
      simp only [handleFSRead, if_neg hnp, if_pos (And.intro h1 h2)]
  · intro p h1 h2
    constructor
    · by_cases hp : p.path = none ∨ ¬ (p.path.getD ⟨false, []⟩).absp
      · exact ⟨"path must be absolute", by simp only [handleFSWrite, if_pos hp]⟩
      · exact ⟨"sessionId mismatch",
          by simp only [handleFSWrite, if_neg hp, if_pos (And.intro h1 h2)]⟩
    · intro path hp ha
      have hnp : ¬ (p.path = none ∨ ¬ (p.path.getD ⟨false, []⟩).absp) := by
        simp [hp, ha]
      simp only [handleFSWrite, if_neg hnp, if_pos (And.intro h1 h2)]
  · intro p h1 h2
    simp only [handleTerminalCreate, if_pos (And.intro h1 h2)]
  · intro p h1 h2
    refine ⟨?_, ?_, ?_, ?_⟩ <;>
      simp only [handleTerminalOutput, handleTerminalWait, handleTerminalKill,
        handleTerminalRelease, if_pos (And.intro h1 h2)]
  · intro p
    simp [handleFSRead]
  · intro p
    simp [handleFSWrite]
  · intro p
    simp [handleTerminalCreate]
  · intro p
    refine ⟨?_, ?_, ?_, ?_⟩ <;>
      simp [handleTerminalOutput, handleTerminalWait, handleTerminalKill,
        handleTerminalRelease]

/-- Claim C10 witness: the amended theorem applied at concrete inputs — a
mismatched `fs/read_text_file` with an absolute path and a mismatched
`terminal/create` both draw "sessionId mismatch". -/
theorem sessionId_mismatch_rejected_witness :
    handleFSRead "right" ⟨"wrong", some ⟨true, ["x"]⟩, 0, 0⟩ =
      .rpcError errInvalidParams "sessionId mismatch" ∧
    handleTerminalCreate "right" ⟨"wrong", "python", [], none, 0⟩ =
      .rpcError errInvalidParams "sessionId mismatch" := by
  constructor
  · exact ((sessionId_mismatch_rejected "right").1
      ⟨"wrong", some ⟨true, ["x"]⟩, 0, 0⟩ (by decide) (by decide)).2
      ⟨true, ["x"]⟩ rfl rfl
  · exact (sessionId_mismatch_rejected "right").2.2.1
      ⟨"wrong", "python", [], none, 0⟩ (by decide) (by decide)

/-- Claim C8 (confirmed).  The capability cache is populated the first time a
downstream `initialize` completes with a parseable result during
`session/new` (`updateCachedCapabilities` on an empty cache stores the
parsed capabilities), and with a populated cache holding the three
sub-objects, an upstream `initialize` returns the conservative defaults
overlaid with the cached `promptCapabilities`, `mcpCapabilities` and
`sessionCapabilities` verbatim, with `loadSession` forced to `false` and no
other keys present. -/
theorem buildAgentCapabilities_overlay :
    (∀ (raw : Option JVal) (caps : List (String × JVal)),
      parseAgentCapabilities raw = some caps →
      updateCachedCapabilities none raw = some caps) ∧
    (∀ (cached : List (String × JVal)) (p m s : JVal),
      lookupField cached "promptCapabilities" = some p →
      lookupField cached "mcpCapabilities" = some m →
      lookupField cached "sessionCapabilities" = some s →
      lookupField (buildAgentCapabilities (some cached)) "promptCapabilities" = some p ∧
      lookupField (buildAgentCapabilities (some cached)) "mcpCapabilities" = some m ∧
      lookupField (buildAgentCapabilities (some cached)) "sessionCapabilities" = some s ∧
      lookupField (buildAgentCapabilities (some cached)) "loadSession" =
        some (.bool false) ∧
      (∀ k, k ≠ "promptCapabilities" → k ≠ "mcpCapabilities" →
        k ≠ "sessionCapabilities" → k ≠ "loadSession" →
        lookupField (buildAgentCapabilities (some cached)) k = none)) := by
  constructor
  · intro raw caps h
    simp [updateCachedCapabilities, h]
  · intro cached p m s hp hm hs
    have hb : buildAgentCapabilities (some cached) =
        setField (setField (setField (setField defaultAgentCapabilities
          "promptCapabilities" p) "mcpCapabilities" m)
          "sessionCapabilities" s) "loadSession" (.bool false) := by
      simp [buildAgentCapabilities, hp, hm, hs]
    refine ⟨?_, ?_, ?_, ?_, ?_⟩
    · rw [hb, lookupField_setField_other _ _ _ _ (by decide),
        lookupField_setField_other _ _ _ _ (by decide),
        lookupField_setField_other _ _ _ _ (by decide),
        lookupField_setField_same]
    · rw [hb, lookupField_setField_other _ _ _ _ (by decide),
        lookupField_setField_other _ _ _ _ (by decide),
        lookupField_setField_same]
    · rw [hb, lookupField_setField_other _ _ _ _ (by decide),
        lookupField_setField_same]
    · rw [hb, lookupField_setField_same]
    · intro k h1 h2 h3 h4
      rw [hb, lookupField_setField_other _ _ _ _ h4,
        lookupField_setField_other _ _ _ _ h3,
        lookupField_setField_other _ _ _ _ h2,
        lookupField_setField_other _ _ _ _ h1]
      simp [lookupField, defaultAgentCapabilities, List.find?,
        Ne.symm h1, Ne.symm h2, Ne.symm h3, Ne.symm h4]

/-- Claim C8 witness: the overlay applied to the scenario-F capability object
reflects its three sub-objects verbatim and forces `loadSession := false`. -/
theorem buildAgentCapabilities_overlay_witness :
    lookupField (buildAgentCapabilities (some capsF)) "promptCapabilities" =
      some (.obj [("image", .bool true), ("audio", .bool true),
                  ("embeddedContext", .bool true)]) ∧
    lookupField (buildAgentCapabilities (some capsF)) "mcpCapabilities" =
      some (.obj [("http", .bool true), ("sse", .bool true)]) ∧
    lookupField (buildAgentCapabilities (some capsF)) "sessionCapabilities" =
      some (.obj [("cancel", .bool true)]) ∧
    lookupField (buildAgentCapabilities (some capsF)) "loadSession" =
      some (.bool false) := by
  have h := buildAgentCapabilities_overlay.2 capsF
    (.obj [("image", .bool true), ("audio", .bool true),
           ("embeddedContext", .bool true)])
    (.obj [("http", .bool true), ("sse", .bool true)])
    (.obj [("cancel", .bool true)]) rfl rfl rfl
  exact ⟨h.1, h.2.1, h.2.2.1, h.2.2.2.1⟩

/-- Claim C4 (counterexample).  The claim promises a byte-for-byte roundtrip
for every non-empty, ≤ 1 MiB, LF-free payload.  The payload `"A "`
(`[65, 32]`) is written verbatim, but the reader trims surrounding
whitespace and returns `"A"` (`[65]`). -/
theorem frame_roundtrip_counterexample :
    writeLineMessage [65, 32] = .ok [65, 32, 10] ∧
    readLineMessage [65, 32, 10] = (.ok [65], []) ∧
    ([65] : List Nat) ≠ [65, 32] := by
  refine ⟨by decide, by decide, by decide⟩

/-- Claim C4 (amended).  `WriteLineMessage(x)` followed by `ReadLineMessage`
on the written bytes returns `x` byte-for-byte for every `x` that is
non-empty, at most 1 MiB, LF-free, and whose first and last bytes are
non-whitespace ASCII (below `0x80`): the reader applies `bytes.TrimSpace`,
which trims surrounding ASCII whitespace and, behind a byte `≥ 0x80` at
either end, Unicode whitespace as well, so payloads with an ASCII space or
a multi-byte whitespace rune at either end do not roundtrip — the final
conjunct exhibits `"A" ++ U+00A0` (`[65, 194, 160]`) being written verbatim
and read back as `"A"`.  `WriteLineMessage` fails on empty, LF-containing,
and over-1-MiB payloads; `ReadLineMessage` fails on an empty stream and on
a frame whose payload exceeds 1 MiB. -/
theorem frame_roundtrip_trimmed :
    (∀ x : List Nat, x ≠ [] → x.length ≤ maxMessageSize → 10 ∉ x →
      x.headD 0 < 128 → isAsciiSpaceByte (x.headD 0) = false →
      x.getLastD 0 < 128 → isAsciiSpaceByte (x.getLastD 0) = false →
      writeLineMessage x = .ok (x ++ [10]) ∧
      readLineMessage (x ++ [10]) = (.ok x, [])) ∧
    writeLineMessage [] = .error .empty ∧
    (∀ x : List Nat, 10 ∈ x → writeLineMessage x = .error .embeddedNewline) ∧
    (∀ x : List Nat, 10 ∉ x → x.length > maxMessageSize →
      writeLineMessage x = .error .tooLong) ∧
    readLineMessage [] = (.error .eof, []) ∧
    (∀ x : List Nat, x ≠ [] → 10 ∉ x → x.length > maxMessageSize →
      x.headD 0 < 128 → isAsciiSpaceByte (x.headD 0) = false →
      x.getLastD 0 < 128 → isAsciiSpaceByte (x.getLastD 0) = false →
      readLineMessage (x ++ [10]) = (.error .tooLong, [])) ∧
    (writeLineMessage [65, 194, 160] = .ok [65, 194, 160, 10] ∧
      readLineMessage [65, 194, 160, 10] = (.ok [65], [])) := by
  refine ⟨?_, rfl, ?_, ?_, rfl, ?_, by decide, by decide⟩
  · intro x hne hlen hlf hh1 hh hl1 hl
    constructor
    · simp [writeLineMessage, hne, hlf, Nat.not_lt.mpr hlen]
    · have : (x ++ [10]).length + 1 = (x.length + 1) + 1 := by simp
      rw [readLineMessage, this, readLineLoop_frame _ x hne hlf hh1 hh hl1 hl,
        if_neg (Nat.not_lt.mpr hlen)]
  · intro x hmem
    have hxe : x ≠ [] := by
      intro h
      rw [h] at hmem
      exact absurd hmem (List.not_mem_nil 10)
    simp [writeLineMessage, hxe, hmem]
  · intro x hlf hlen
    have hxe : x ≠ [] := by
      intro h
      rw [h] at hlen
      simp [maxMessageSize] at hlen
    simp [writeLineMessage, hxe, hlf, hlen]
  · intro x hne hlf hlen hh1 hh hl1 hl
    have : (x ++ [10]).length + 1 = (x.length + 1) + 1 := by simp
    rw [readLineMessage, this, readLineLoop_frame _ x hne hlf hh1 hh hl1 hl,
      if_pos hlen]

/-- Claim C4 witness: the amended roundtrip applied at `x = "A"` (`[65]`),
plus concrete write failures for the empty and LF payloads. -/
theorem frame_roundtrip_trimmed_witness :
    (writeLineMessage [65] = .ok [65, 10] ∧
      readLineMessage [65, 10] = (.ok [65], [])) ∧
    writeLineMessage [] = .error .empty ∧
    writeLineMessage [66, 10, 66] = .error .embeddedNewline := by
  refine ⟨?_, frame_roundtrip_trimmed.2.1, ?_⟩
  · exact frame_roundtrip_trimmed.1 [65] (by decide) (by decide) (by decide)
      (by decide) (by decide) (by decide) (by decide)
  · exact frame_roundtrip_trimmed.2.2.1 [66, 10, 66] (by decide)

/-- Claim C5 (confirmed).  For every capped buffer with a positive limit and
every finite sequence of writes, `Snapshot` returns a suffix of the
concatenation of the writes whose length is at most the limit, and the
truncated flag is set iff the total number of bytes written exceeds the
limit. -/
theorem cappedBuffer_snapshot_spec (limit : Int) (hpos : 0 < limit)
    (ws : List (List Nat)) :
    ((CappedBuffer.init limit).writeAll ws).snapshot.1 <:+ ws.flatten ∧
    ((((CappedBuffer.init limit).writeAll ws).snapshot.1.length : Int) ≤ limit) ∧
    (((CappedBuffer.init limit).writeAll ws).snapshot.2 = true ↔
      limit < (ws.flatten.length : Int)) := by
  have htn : (limit.toNat : Int) = limit := Int.toNat_of_nonneg (le_of_lt hpos)
  obtain ⟨-, h2, h3, h4⟩ :=
    cappedBuffer_writeAll_inv limit hpos ws (CappedBuffer.init limit) [] 0
      rfl List.nil_suffix (by simp [CappedBuffer.init]) (by
        constructor
        · intro h
          exact absurd h (by simp [CappedBuffer.init])
        · intro h
          omega)

  refine ⟨by simpa using h2, ?_, by simpa using h4⟩
  have := h3
  simp only [CappedBuffer.snapshot]
  omega

/-- Claim C5 witness: two writes `[1]` and `[2, 3]` against limit 2 leave the
suffix `[2, 3]` with the truncated flag set. -/
theorem cappedBuffer_snapshot_spec_witness :
    ((CappedBuffer.init 2).writeAll [[1], [2, 3]]).snapshot.1 <:+
      [[1], [2, 3]].flatten ∧
    ((((CappedBuffer.init 2).writeAll [[1], [2, 3]]).snapshot.1.length : Int) ≤ 2) ∧
    (((CappedBuffer.init 2).writeAll [[1], [2, 3]]).snapshot.2 = true ↔
      (2 : Int) < ([[1], [2, 3]].flatten.length : Int)) :=
  cappedBuffer_snapshot_spec 2 (by decide) [[1], [2, 3]]

/-- Claim C2 (confirmed).  `matchAllowlist` scans the allowlist in declared
order and returns the first entry matching the claim's criterion (template
tokens a prefix of `[command] ++ args`; remainder empty, or `allow_args`
with `max_args == 0` or remainder within `max_args`) together with the
remainder, and fails with "command not in allowlist" when no entry matches
— provided every template tokenizes nonempty and no `max_args` is negative,
as in the default allowlist.  In particular `matchAllowlist("python",
["-m","pytest"] ++ ["x"]*21)` against the defaults (pytest `max_args` 20)
is rejected. -/
theorem matchAllowlist_first_match (commands : List Command)
    (h1 : ∀ c ∈ commands, goFields c.template ≠ [])
    (h2 : ∀ c ∈ commands, 0 ≤ c.maxArgs)
    (command : String) (args : List String) :
    matchAllowlist commands command args =
      firstMatchSpec commands (command :: args) ∧
    matchAllowlist defaultUnixCommands "python"
        (["-m", "pytest"] ++ List.replicate 21 "x") =
      .error "command not in allowlist" := by
  constructor
  · exact matchAllowlistGo_eq commands (command :: args) h1 h2
  · decide

/-- Claim C2 witness: the characterization applied to the default allowlist
and spec scenario A (`python -m pytest -k smoke`), whose first match is the
`pytest` entry with remainder `["-k", "smoke"]`. -/
theorem matchAllowlist_first_match_witness :
    matchAllowlist defaultUnixCommands "python" ["-m", "pytest", "-k", "smoke"] =
      firstMatchSpec defaultUnixCommands ["python", "-m", "pytest", "-k", "smoke"] ∧
    (firstMatchSpec defaultUnixCommands
        ["python", "-m", "pytest", "-k", "smoke"]).toOption.map
      (fun r => (r.1.id, r.2)) = some ("pytest", ["-k", "smoke"]) := by
  constructor
  · exact (matchAllowlist_first_match defaultUnixCommands (by decide) (by decide)
      "python" ["-m", "pytest", "-k", "smoke"]).1
  · decide

/-- Claim C3 (confirmed).  Every terminal created by `Create` carries only
shell-metacharacter-free extra tokens: if `Create` reaches its spawn
configuration, every extra token is clean; and whenever the allowlist match
accepts extra tokens of which one contains a metacharacter, `Create`
returns an error and never reaches the spawn. -/
theorem create_extra_shellMeta_free (fs : FS) (blockedPaths : List String)
    (cfg : ExecConfig) (st : WSState) (command : String) (args : List String)
    (cwdArg : Option GoPath) (outputLimit : Int) :
    (∀ plan : SpawnPlan,
      createPlan fs blockedPaths cfg st command args cwdArg outputLimit = .ok plan →
      ∀ arg ∈ plan.extra, containsShellMeta arg = false) ∧
    (∀ (cmdDef : Command) (extra : List String),
      matchAllowlist (managerCommands cfg) command args = .ok (cmdDef, extra) →
      (∃ arg ∈ extra, containsShellMeta arg = true) →
      ∃ e, createPlan fs blockedPaths cfg st command args cwdArg outputLimit =
        .error e) := by
  constructor
  · intro plan hok
    rw [createPlan.eq_def] at hok
    by_cases he : ¬ cfg.enabled = true
    · rw [if_pos he] at hok
      exact absurd hok (by simp)
    · rw [if_neg he] at hok
      cases hm : matchAllowlist (managerCommands cfg) command args with
      | error e =>
        rw [hm] at hok
        exact absurd hok (by simp)
      | ok pr =>
        obtain ⟨cmdDef, extraArgs⟩ := pr
        rw [hm] at hok
        dsimp only at hok
        cases hf : extraArgs.find? containsShellMeta with
        | some a =>
          rw [hf] at hok
          exact absurd hok (by simp)
        | none =>
          rw [hf] at hok
          dsimp only at hok
          have hclean : ∀ arg ∈ extraArgs, containsShellMeta arg = false := by
            intro arg harg
            have := List.find?_eq_none.mp hf arg harg
            simpa using this
          cases hc : (match cwdArg with
            | none => st.root.map (fun r => (⟨true, r⟩ : GoPath))
            | some c => some c) with
          | none =>
            rw [hc] at hok
            exact absurd hok (by simp)
          | some c =>
            rw [hc] at hok
            dsimp only at hok
            by_cases hab : ¬ c.absp = true
            · rw [if_pos hab] at hok
              exact absurd hok (by simp)
            · rw [if_neg hab] at hok
              cases hr : resolvePath fs blockedPaths st c with
              | error e =>
                rw [hr] at hok
                exact absurd hok (by simp)
              | ok absCwd =>
                rw [hr] at hok
                dsimp only at hok
                have hplan : plan.extra = extraArgs := by
                  have := (Except.ok.injEq _ _).mp hok.symm
                  rw [this]
                rw [hplan]
                exact hclean
  · intro cmdDef extra hm hex
    rw [createPlan.eq_def]
    by_cases he : ¬ cfg.enabled = true
    · exact ⟨_, by rw [if_pos he]⟩
    · rw [if_neg he, hm]
      dsimp only
      obtain ⟨a, hmem, hmeta⟩ := hex
      cases hf : extra.find? containsShellMeta with
      | none =>
        have := List.find?_eq_none.mp hf a hmem
        rw [hmeta] at this
        exact absurd rfl this
      | some b => exact ⟨_, rfl⟩

/-- Claim C3 witness: with the default allowlist, `python -m pytest "x;y"`
matches the allowlist with extra `["x;y"]` but `Create` rejects it, and a
clean call's accepted extras `["-k", "smoke"]` are metacharacter-free. -/
theorem create_extra_shellMeta_free_witness :
    (∃ e, createPlan fsW defaultBlockedPaths cfgZeroMax stW "python"
      ["-m", "pytest", "x;y"] none 0 = .error e) ∧
    (∀ arg ∈ (["-k", "smoke"] : List String), containsShellMeta arg = false) := by
  constructor
  · exact (create_extra_shellMeta_free fsW defaultBlockedPaths cfgZeroMax stW
      "python" ["-m", "pytest", "x;y"] none 0).2
      (defaultUnixCommands.headD
        { id := "", template := "", description := "", category := "",
          allowArgs := false, maxArgs := 0, env := [] })
      ["x;y"] (by decide) ⟨"x;y", by decide, by decide⟩
  · have hok : createPlan fsW defaultBlockedPaths cfgZeroMax stW "python"
        ["-m", "pytest", "-k", "smoke"] none 0 = .ok
          { cmdDef := defaultUnixCommands.headD
              { id := "", template := "", description := "", category := "",
                allowArgs := false, maxArgs := 0, env := [] },
            extra := ["-k", "smoke"],
            fullCmd := "python -m pytest -k smoke",
            absCwd := ⟨true, ["ws"]⟩, limit := 1048576 } := by decide
    have h := (create_extra_shellMeta_free fsW defaultBlockedPaths cfgZeroMax stW
      "python" ["-m", "pytest", "-k", "smoke"] none 0).1 _ hok
    simpa using h

/-- Claim C9 (confirmed).  With a workspace root set, `Chdir(path)` succeeds
exactly when the new cwd — the argument joined onto the current cwd when
relative, taken as is when absolute (`chdirNewCwd`), interpreted relative to
the root — validates through the guard and stats as a directory; and on
success the stored cwd is the cleaned form of that new root-relative path. -/
theorem chdir_characterization (fs : FS) (blockedPaths : List String)
    (st : WSState) (root : Comps) (pathArg : GoPath)
    (hroot : st.root = some root) :
    ∀ st', chdir fs blockedPaths st pathArg = .ok st' ↔
      (validatePathLocked fs blockedPaths st
          (joinPaths ⟨true, root⟩ (chdirNewCwd st pathArg)) = .ok () ∧
       osStat fs (joinPaths ⟨true, root⟩ (chdirNewCwd st pathArg)) = .ok .dir ∧
       st' = { st with cwd := clean (chdirNewCwd st pathArg) }) := by
  intro st'
  rw [chdir.eq_def, hroot]
  dsimp only
  cases hv : validatePathLocked fs blockedPaths st
      (joinPaths ⟨true, root⟩ (chdirNewCwd st pathArg)) with
  | error e =>
    dsimp only
    constructor
    · intro h
      exact absurd h (by simp)
    · rintro ⟨h1, -, -⟩
      exact absurd h1 (by simp)
  | ok u =>
    cases u
    cases hs : osStat fs (joinPaths ⟨true, root⟩ (chdirNewCwd st pathArg)) with
    | error e =>
      dsimp only
      constructor
      · intro h
        exact absurd h (by simp)
      · rintro ⟨-, h2, -⟩
        exact absurd h2 (by simp)
    | ok n =>
      dsimp only
      by_cases hn : n = .dir
      · subst hn
        rw [if_pos rfl]
        constructor
        · intro h
          exact ⟨rfl, rfl, (Except.ok.inj h).symm⟩
        · rintro ⟨-, -, rfl⟩
          rfl
      · rw [if_neg hn]
        constructor
        · intro h
          exact absurd h (by simp)
        · rintro ⟨-, h2, -⟩
          exact absurd (Except.ok.inj h2) hn

/-- Claim C9 witness: in the `/ws` workspace, `Chdir("sub")` resolves against
the cwd `"."`, validates, stats `/ws/sub` as a directory and stores cwd
`"sub"`. -/
theorem chdir_characterization_witness :
    chdir fsW defaultBlockedPaths stW ⟨false, ["sub"]⟩ =
      .ok { stW with cwd := ⟨false, ["sub"]⟩ } := by
  exact (chdir_characterization fsW defaultBlockedPaths stW ["ws"]
    ⟨false, ["sub"]⟩ rfl _).mpr ⟨by decide, by decide, by decide⟩

end TldwAgent
